import Mathlib

/-!
The retrying request wrapper of `lib/http.js`.

A shallow embedding of `MakeRequest` and of the `attemptRequest` closure it
schedules.  JavaScript values are a small inductive type, the descriptor is a
plain object (a list of own properties), the collaborators that are not part of
the file (`request`, `JSON.parse`, `Debug`, `debugPrint`, the timers) are either
fields of `Host` or events of a trace, and the event loop is an explicit
deterministic step function on the state captured by the closure.
-/

set_option autoImplicit false

namespace Http

/-! ## JavaScript values -/

/-- A JavaScript value.  Numbers are the integers (`num`), `NaN` (`nan`) and
the two infinities (`inf false` is `Infinity`, `inf true` is `-Infinity`);
fractions are not represented.  An object is the list of its own data
properties (first binding of a key wins). -/
inductive JSVal where
  | undefined
  | null
  | bool (b : Bool)
  | num (n : Int)
  | nan
  | inf (negative : Bool)
  | str (s : String)
  | obj (fields : List (String × JSVal))

/-- What `ToNumber` can give: `NaN`, an integer, or one of the infinities. -/
inductive JSNum where
  | nan
  | negInf
  | fin (n : Int)
  | posInf

/-- The own properties of an object. -/
abbrev Fields := List (String × JSVal)

/-- `ToBoolean`: the values that count as true in `if (v)` and `v || d`. -/
def truthy : JSVal → Bool
  | .undefined => false
  | .null => false
  | .bool b => b
  | .num n => n != 0
  | .nan => false
  | .inf _ => true
  | .str s => s != ""
  | .obj _ => true

/-- The expression `a || b`. -/
def jsOr (a b : JSVal) : JSVal :=
  if truthy a then a else b

/-- Whether reading a property of the value throws (`undefined.x`, `null.x`). -/
def isNullish : JSVal → Bool
  | .undefined => true
  | .null => true
  | _ => false

/-- Look a key up among own properties. -/
def lookupField (k : String) : Fields → Option JSVal
  | [] => none
  | (k', v) :: rest => if k' = k then some v else lookupField k rest

/-- The expression `o.k` for a value that is not nullish: the own property when
the object has it, `undefined` otherwise (and for every primitive). -/
def getProp (o : JSVal) (k : String) : JSVal :=
  match o with
  | .obj fs => (lookupField k fs).getD .undefined
  | _ => .undefined

/-- Whether the object has the own property `k`. -/
def hasKey (o : JSVal) (k : String) : Bool :=
  match o with
  | .obj fs => (lookupField k fs).isSome
  | _ => false

/-- The own property `k` of an object, when it has one. -/
def ownProp (o : JSVal) (k : String) : Option JSVal :=
  match o with
  | .obj fs => lookupField k fs
  | _ => none

/-- The statement `delete o.k`: the object without the property; a primitive is
left as it is. -/
def deleteProp (o : JSVal) (k : String) : JSVal :=
  match o with
  | .obj fs => .obj (fs.filter (fun p => p.1 != k))
  | v => v

/-- An `Error` object with the given message. -/
def mkError (name message : String) : JSVal :=
  .obj [("name", .str name), ("message", .str message)]

/-! ## The host: everything `http.js` requires or calls but does not define -/

/-- The collaborators of the wrapper.  `IsDebug` is `Debug.IsDebug`,
`OfflineTests` says whether `Debug.OfflineTests` is set, `jsonParse` is
`JSON.parse` on the text of its argument (an error carries the text of the
exception), `objToString` is `ToString` on objects and `toNumber` is `ToNumber`
on strings and objects. -/
structure Host where
  IsDebug : Bool
  OfflineTests : Bool
  jsonParse : String → Except String JSVal
  objToString : Fields → String
  toNumber : JSVal → JSNum

/-- `ToString`, as used by template literals and by `JSON.parse`. -/
def toStr (host : Host) : JSVal → String
  | .undefined => "undefined"
  | .null => "null"
  | .bool true => "true"
  | .bool false => "false"
  | .num n => toString n
  | .nan => "NaN"
  | .inf false => "Infinity"
  | .inf true => "-Infinity"
  | .str s => s
  | .obj fs => host.objToString fs

/-- `ToNumber`. -/
def toNumeric (host : Host) : JSVal → JSNum
  | .undefined => .nan
  | .null => .fin 0
  | .bool true => .fin 1
  | .bool false => .fin 0
  | .num n => .fin n
  | .nan => .nan
  | .inf false => .posInf
  | .inf true => .negInf
  | v => host.toNumber v

/-- `ToNumber` when the result is an integer; `none` for `NaN` and for the two
infinities. -/
def toNum (host : Host) (v : JSVal) : Option Int :=
  match toNumeric host v with
  | .fin n => some n
  | _ => none

/-- The comparison `attempt < retries` of a counter with a value: false
against `NaN` and `-Infinity`, true against `Infinity`. -/
def jsLess (host : Host) (attempt : Nat) (retries : JSVal) : Bool :=
  match toNumeric host retries with
  | .fin n => decide ((attempt : Int) < n)
  | .posInf => true
  | _ => false

/-- Whether the value is `Infinity` as a number, so that `attempt < retries`
holds for every counter and the retries are not bounded. -/
def unbounded (host : Host) (retries : JSVal) : Bool :=
  match toNumeric host retries with
  | .posInf => true
  | _ => false

/-- One answer of the transport: the arguments `request` passes to its
callback. -/
structure Response where
  err : JSVal
  resp : JSVal
  body : JSVal

/-- The transport seen from the wrapper: the answer to each call, by the
0-based index of the call. -/
abbrev Transport := Nat → Response

/-! ## Observable effects -/

/-- How the promise returned by `MakeRequest` is settled. -/
inductive Outcome where
  | resolve (value : JSVal)
  | reject (reason : JSVal)

/-- What an invocation does to the outside world, in order. -/
inductive Event where
  | offlineSetup
  | disableNetConnect
  | log (message : JSVal)
  | nextTick
  | request (descriptor : JSVal)
  | setTimeout (delay : JSVal)
  | parse (text : String)
  | settle (outcome : Outcome)

/-- Modelled from the spec: `lib/debugPrint` (the `Log` function) is not among
the sources; the diagnostic sink is a no-op unless the process-wide debug flag
is set. -/
def Log (host : Host) (message : JSVal) : List Event :=
  if host.IsDebug then [.log message] else []

/-- What the event loop holds for this invocation. -/
inductive Pending where
  | nextTick
  | timer (delay : JSVal)
  | inFlight
  | idle

/-- The variables captured by the promise executor and `attemptRequest`,
the state of the promise, and the effects so far.  `calls` counts the
invocations of `request` and indexes the transport. -/
structure State where
  networkRequest : JSVal
  retries : JSVal
  retryDelay : JSVal
  returnFullResponse : JSVal
  forceJSON : JSVal
  attempt : Nat
  calls : Nat
  pending : Pending
  settled : Option Outcome
  trace : List Event

/-- The result of the synchronous part of a call. -/
inductive Completion where
  | threw (error : JSVal) (trace : List Event)
  | returned (s : State)

/-! ## `MakeRequest` -/

/-- The synchronous body of `MakeRequest` (lines 20-57 and 102): the arity
check, the debug preamble, the extraction and deletion of the four control
properties, and the scheduling of the first attempt on the next tick. -/
def MakeRequest (host : Host) (args : List JSVal) : Completion :=
  if args.length != 1 then
    .threw (mkError "Error" "HTTP requires 1 argument. The network object configuration") []
  else
    let networkRequest := args.headD .undefined
    let t0 : List Event :=
      if host.IsDebug && host.OfflineTests then [.offlineSetup, .disableNetConnect] else []
    if isNullish networkRequest then
      .threw (mkError "TypeError" "Cannot read properties of undefined") t0
    else
      let t1 := t0 ++
        (if host.IsDebug then
          Log host (.str ("Making request to " ++ toStr host (getProp networkRequest "url")))
        else [])
      let retries := jsOr (getProp networkRequest "retries") (.num 3)
      let networkRequest := deleteProp networkRequest "retries"
      let retryDelay := jsOr (getProp networkRequest "retryDelay") (.num 2000)
      let networkRequest := deleteProp networkRequest "retryDelay"
      let returnFullResponse := jsOr (getProp networkRequest "returnFullResponse") (.bool false)
      let networkRequest := deleteProp networkRequest "returnFullResponse"
      let forceJSON := jsOr (getProp networkRequest "forceJSON") (.bool false)
      let networkRequest := deleteProp networkRequest "forceJSON"
      .returned
        { networkRequest := networkRequest
          retries := retries
          retryDelay := retryDelay
          returnFullResponse := returnFullResponse
          forceJSON := forceJSON
          attempt := 0
          calls := 0
          pending := .nextTick
          settled := none
          trace := t1 ++ [.nextTick] }

/-- Calling `resolve` or `reject`: the first call settles the promise, a later
one is ignored; nothing is left on the event loop. -/
def settle (s : State) (logs : List Event) (o : Outcome) : State :=
  { s with
    pending := .idle
    settled := if s.settled.isSome then s.settled else some o
    trace := s.trace ++ logs ++ [.settle o] }

/-- The body of `attemptRequest` (line 63): hand the descriptor to `request`. -/
def attemptRequest (s : State) : State :=
  { s with
    calls := s.calls + 1
    pending := .inFlight
    trace := s.trace ++ [.request s.networkRequest] }

/-- The callback given to `request` (lines 63-98). -/
def callback (host : Host) (s : State) (r : Response) : State :=
  if truthy r.err then
    if jsLess host s.attempt s.retries then
      let attempt := s.attempt + 1
      { s with
        attempt := attempt
        pending := .timer s.retryDelay
        trace := s.trace
          ++ Log host (.str ("Network request failed attempt " ++ toString attempt ++ "/"
              ++ toStr host s.retries ++ " for URL "
              ++ toStr host (getProp s.networkRequest "url")))
          ++ Log host r.err
          ++ [.setTimeout s.retryDelay] }
    else
      settle s [] (.reject r.err)
  else if truthy s.returnFullResponse then
    settle s
      (Log host (.str ("Successfully fetched response for URL "
        ++ toStr host (getProp s.networkRequest "url"))))
      (.resolve r.resp)
  else if truthy s.forceJSON then
    match host.jsonParse (toStr host r.body) with
    | .error e =>
      settle { s with trace := s.trace ++ [.parse (toStr host r.body)] } []
        (.reject (.str ("Unable to parse " ++ toStr host r.body
          ++ " into a JSON object: " ++ e)))
    | .ok data =>
      settle { s with trace := s.trace ++ [.parse (toStr host r.body)] }
        (Log host (.str ("Successfully fetched and parsed JSON from response at "
          ++ toStr host (getProp s.networkRequest "url"))))
        (.resolve data)
  else
    settle s
      (Log host (.str ("Successfully fetched body for URL "
        ++ toStr host (getProp s.networkRequest "url"))))
      (.resolve r.body)

/-- One turn of the event loop for this invocation: a queued `attemptRequest`
runs, or the transport answers the call in flight. -/
def step (host : Host) (transport : Transport) (s : State) : Option State :=
  match s.pending with
  | .nextTick => some (attemptRequest s)
  | .timer _ => some (attemptRequest s)
  | .inFlight => some (callback host s (transport (s.calls - 1)))
  | .idle => none

/-- Run the event loop for at most `fuel` turns. -/
def run (host : Host) (transport : Transport) : Nat → State → State
  | 0, s => s
  | fuel + 1, s =>
    match step host transport s with
    | none => s
    | some s' => run host transport fuel s'

/-- The descriptors handed to `request`, in order. -/
def requestsOf : List Event → List JSVal
  | [] => []
  | .request d :: rest => d :: requestsOf rest
  | _ :: rest => requestsOf rest

/-- The delays given to `setTimeout`, in order. -/
def timersOf : List Event → List JSVal
  | [] => []
  | .setTimeout d :: rest => d :: timersOf rest
  | _ :: rest => timersOf rest

/-- The texts given to `JSON.parse`, in order. -/
def parsesOf : List Event → List String
  | [] => []
  | .parse t :: rest => t :: parsesOf rest
  | _ :: rest => parsesOf rest

/-- The number of calls of `request` recorded in a trace. -/
def transportCalls (trace : List Event) : Nat :=
  (requestsOf trace).length

/-- The retry limit in force when there is one: the number a counter is
compared with in `attempt < retries`, as a natural number (a negative limit or
`NaN` allows no retry).  For `Infinity` there is no limit (`unbounded`), and
this number is 0. -/
def retryLimit (host : Host) (retries : JSVal) : Nat :=
  match toNum host retries with
  | some n => n.toNat
  | none => 0

/-- The result shaping of lines 80-97 as an outcome: what a successful
transmission settles the promise with, given the two captured flags. -/
def shapeOutcome (host : Host) (returnFullResponse forceJSON : JSVal) (r : Response) :
    Outcome :=
  if truthy returnFullResponse then .resolve r.resp
  else if truthy forceJSON then
    match host.jsonParse (toStr host r.body) with
    | .error e =>
      .reject (.str ("Unable to parse " ++ toStr host r.body ++ " into a JSON object: " ++ e))
    | .ok data => .resolve data
  else .resolve r.body

/-- A whole invocation: the synchronous call, then the event loop for at most
`fuel` turns.  `none` when the call threw. -/
def invoke (host : Host) (transport : Transport) (fuel : Nat) (args : List JSVal) :
    Option State :=
  match MakeRequest host args with
  | .threw _ _ => none
  | .returned s => some (run host transport fuel s)

/-- Whether an `attemptRequest` is queued (on the next tick or on a timer). -/
def queued : Pending → Bool
  | .nextTick => true
  | .timer _ => true
  | _ => false

/-- One attempt as a whole: `attemptRequest` runs and the transport answers. -/
def round (host : Host) (transport : Transport) (s : State) : State :=
  callback host (attemptRequest s) (transport s.calls)

/-- The captured configuration is the same in both states. -/
def SameConfig (s s' : State) : Prop :=
  s'.networkRequest = s.networkRequest ∧ s'.retries = s.retries ∧
  s'.retryDelay = s.retryDelay ∧ s'.returnFullResponse = s.returnFullResponse ∧
  s'.forceJSON = s.forceJSON

/-- How the counters relate to what is queued. -/
def phaseOk (s : State) : Prop :=
  match s.pending with
  | .nextTick => s.calls = 0 ∧ s.attempt = 0
  | .timer d => d = s.retryDelay ∧ s.calls = s.attempt ∧ 0 < s.attempt
  | .inFlight => s.calls = s.attempt + 1
  | .idle => s.calls = s.attempt + 1

/-- The invariant of an invocation: every call of `request` got the captured
descriptor, every timer the captured delay, the counters agree with what is
queued, the counter is within the limit when there is one, and the promise is
settled exactly when nothing is queued. -/
structure Inv (host : Host) (s : State) : Prop where
  requests : requestsOf s.trace = List.replicate s.calls s.networkRequest
  timers : timersOf s.trace = List.replicate s.attempt s.retryDelay
  phase : phaseOk s
  bound : unbounded host s.retries = true ∨ s.attempt ≤ retryLimit host s.retries
  unsettled : s.pending ≠ .idle → s.settled = none ∧ parsesOf s.trace = []
  settledIdle : s.pending = .idle → s.settled.isSome = true

/-- The descriptor after the four `delete` statements of lines 42-54. -/
def sanitize (d : JSVal) : JSVal :=
  deleteProp (deleteProp (deleteProp (deleteProp d "retries") "retryDelay")
    "returnFullResponse") "forceJSON"

/-- The effects of the debug preamble of lines 25-37. -/
def preamble (host : Host) (d : JSVal) : List Event :=
  (if host.IsDebug && host.OfflineTests then [.offlineSetup, .disableNetConnect] else []) ++
    (if host.IsDebug then
      Log host (.str ("Making request to " ++ toStr host (getProp d "url")))
    else [])

/-- The state in which `MakeRequest` returns its promise for the descriptor
`d`. -/
def initial (host : Host) (d : JSVal) : State :=
  { networkRequest := sanitize d
    retries := jsOr (getProp d "retries") (.num 3)
    retryDelay := jsOr (getProp d "retryDelay") (.num 2000)
    returnFullResponse := jsOr (getProp d "returnFullResponse") (.bool false)
    forceJSON := jsOr (getProp d "forceJSON") (.bool false)
    attempt := 0
    calls := 0
    pending := .nextTick
    settled := none
    trace := preamble host d ++ [.nextTick] }

/-! ## Concrete collaborators for the examples -/

/-- A `JSON.parse` for the examples: it knows the three literal names and, like
`JSON.parse`, throws a `SyntaxError` on the texts `not json` and `undefined`;
no other text is given to it. -/
def sampleParse (text : String) : Except String JSVal :=
  if text = "null" then .ok .null
  else if text = "true" then .ok (.bool true)
  else if text = "false" then .ok (.bool false)
  else .error "SyntaxError: Unexpected token in JSON"

/-- A host with debugging off.  No example gives `retries` as a string or an
object, so its `toNumber` is never consulted. -/
def sampleHost : Host :=
  { IsDebug := false
    OfflineTests := false
    jsonParse := sampleParse
    objToString := fun _ => "[object Object]"
    toNumber := fun _ => .nan }

/-- The error object of the failed call number `i`. -/
def sampleError (i : Nat) : JSVal :=
  .obj [("code", .str "ETIMEDOUT"), ("call", .num i)]

/-- A transport that fails on every call. -/
def alwaysFails : Transport :=
  fun i => { err := sampleError i, resp := .undefined, body := .undefined }

/-- A transport that fails on the first `k` calls and then answers with the
given body. -/
def failsThenAnswers (k : Nat) (body : JSVal) : Transport :=
  fun i =>
    if i < k then { err := sampleError i, resp := .undefined, body := .undefined }
    else { err := .null, resp := .obj [("statusCode", .num 200), ("body", body)], body := body }

/-! ## Observations on whole invocations -/

/-- The outcomes given to `resolve` and `reject`, in order. -/
def settlesOf : List Event → List Outcome
  | [] => []
  | .settle o :: rest => o :: settlesOf rest
  | _ :: rest => settlesOf rest

/-- A trace without its diagnostics: the `Log` lines and the two calls of the
offline-test preamble are dropped, every other effect is kept in order. -/
def effects : List Event → List Event
  | [] => []
  | .log _ :: rest => effects rest
  | .offlineSetup :: rest => effects rest
  | .disableNetConnect :: rest => effects rest
  | e :: rest => e :: effects rest

/-- A state without the diagnostics in its trace. -/
def quiet (s : State) : State :=
  { s with trace := effects s.trace }

/-- The same host with other values of `Debug.IsDebug` and
`Debug.OfflineTests`. -/
def withFlags (host : Host) (isDebug offlineTests : Bool) : Host :=
  { host with IsDebug := isDebug, OfflineTests := offlineTests }

/-- What the caller and the transport get to see of an invocation: the number
of calls of `request`, the descriptors handed to it, and how the promise is
settled. -/
structure Observation where
  calls : Nat
  requests : List JSVal
  settled : Option Outcome

/-- The observation made in a state. -/
def observe (s : State) : Observation :=
  { calls := transportCalls s.trace
    requests := requestsOf s.trace
    settled := s.settled }

/-- The caller's object after the call `MakeRequest(d)`.  The closure variable
`networkRequest` is the object the caller passed (no copy is made on lines
40-54), so after a call that returned, the caller's object is what
`networkRequest` holds; a call that threw on its first property read has not
touched it. -/
def descriptorAfter (host : Host) (d : JSVal) : JSVal :=
  match MakeRequest host [d] with
  | .returned s => s.networkRequest
  | .threw _ _ => d

/-- Whether the turn of the event loop taken in `s` is a failed transmission
that is followed by a retry: the call in flight is answered with an error
while `attempt < retries`. -/
def retried (host : Host) (transport : Transport) (s : State) : Bool :=
  match s.pending with
  | .inFlight =>
    truthy (transport (s.calls - 1)).err && jsLess host s.attempt s.retries
  | _ => false

/-! ## Traces -/

theorem requestsOf_append (a b : List Event) :
    requestsOf (a ++ b) = requestsOf a ++ requestsOf b := by
  induction a with
  | nil => rfl
  | cons e rest ih => cases e <;> simp [requestsOf, ih]

theorem timersOf_append (a b : List Event) :
    timersOf (a ++ b) = timersOf a ++ timersOf b := by
  induction a with
  | nil => rfl
  | cons e rest ih => cases e <;> simp [timersOf, ih]

theorem parsesOf_append (a b : List Event) :
    parsesOf (a ++ b) = parsesOf a ++ parsesOf b := by
  induction a with
  | nil => rfl
  | cons e rest ih => cases e <;> simp [parsesOf, ih]

theorem requestsOf_Log (host : Host) (m : JSVal) : requestsOf (Log host m) = [] := by
  unfold Log; split <;> rfl

theorem timersOf_Log (host : Host) (m : JSVal) : timersOf (Log host m) = [] := by
  unfold Log; split <;> rfl

theorem parsesOf_Log (host : Host) (m : JSVal) : parsesOf (Log host m) = [] := by
  unfold Log; split <;> rfl

theorem mem_requestsOf (x : JSVal) (t : List Event) :
    x ∈ requestsOf t ↔ Event.request x ∈ t := by
  induction t with
  | nil => simp [requestsOf]
  | cons e rest ih => cases e <;> simp [requestsOf, ih]

theorem mem_timersOf (x : JSVal) (t : List Event) :
    x ∈ timersOf t ↔ Event.setTimeout x ∈ t := by
  induction t with
  | nil => simp [timersOf]
  | cons e rest ih => cases e <;> simp [timersOf, ih]

theorem mem_parsesOf (x : String) (t : List Event) :
    x ∈ parsesOf t ↔ Event.parse x ∈ t := by
  induction t with
  | nil => simp [parsesOf]
  | cons e rest ih => cases e <;> simp [parsesOf, ih]

theorem jsLess_eq (host : Host) (a : Nat) (v : JSVal) :
    jsLess host a v = (unbounded host v || decide (a < retryLimit host v)) := by
  unfold jsLess unbounded retryLimit toNum
  cases toNumeric host v <;> simp [Int.lt_toNat]

theorem unbounded_of_toNum (host : Host) (v : JSVal) (n : Int)
    (h : toNum host v = some n) : unbounded host v = false := by
  unfold toNum at h
  unfold unbounded
  cases hv : toNumeric host v <;> simp_all

theorem unbounded_num (host : Host) (n : Int) : unbounded host (.num n) = false := by
  simp [unbounded, toNumeric]

theorem jsLess_of_lt (host : Host) (a : Nat) (v : JSVal) (h : a < retryLimit host v) :
    jsLess host a v = true := by
  simp [jsLess_eq, h]

theorem jsLess_of_unbounded (host : Host) (a : Nat) (v : JSVal)
    (h : unbounded host v = true) : jsLess host a v = true := by
  simp [jsLess_eq, h]

theorem jsLess_of_ge (host : Host) (a : Nat) (v : JSVal) (hfin : unbounded host v = false)
    (h : retryLimit host v ≤ a) : jsLess host a v = false := by
  have : ¬ a < retryLimit host v := by omega
  simp [jsLess_eq, hfin, this]

/-! ## The event loop -/

theorem run_idle (host : Host) (transport : Transport) (n : Nat) (s : State)
    (h : s.pending = .idle) : run host transport n s = s := by
  cases n with
  | zero => rfl
  | succ n => simp [run, step, h]

theorem step_queued (host : Host) (transport : Transport) (s : State)
    (h : queued s.pending = true) : step host transport s = some (attemptRequest s) := by
  unfold step
  cases hp : s.pending <;> simp_all [queued]

theorem run_round (host : Host) (transport : Transport) (n : Nat) (s : State)
    (h : queued s.pending = true) :
    run host transport (n + 2) s = run host transport n (round host transport s) := by
  have h1 : step host transport (attemptRequest s)
      = some (round host transport s) := by
    simp [step, attemptRequest, round]
  simp [run, step_queued host transport s h, h1]

theorem run_add (host : Host) (transport : Transport) (m n : Nat) (s : State) :
    run host transport (m + n) s = run host transport n (run host transport m s) := by
  induction m generalizing s with
  | zero => simp [run]
  | succ m ih =>
    rw [Nat.succ_add]
    simp only [run]
    cases hs : step host transport s with
    | none =>
      have hidle : s.pending = .idle := by
        unfold step at hs
        cases hp : s.pending <;> simp_all
      simp [run_idle host transport n s hidle]
    | some s' => simpa using ih s'

theorem callback_sameConfig (host : Host) (s : State) (r : Response) :
    SameConfig s (callback host s r) := by
  unfold callback SameConfig settle
  split
  · split <;> simp
  · split
    · simp
    · split
      · split <;> simp
      · simp

theorem step_sameConfig (host : Host) (transport : Transport) (s s' : State)
    (h : step host transport s = some s') : SameConfig s s' := by
  unfold step at h
  cases hp : s.pending <;> simp [hp] at h <;> subst h
  · simp [SameConfig, attemptRequest]
  · simp [SameConfig, attemptRequest]
  · exact callback_sameConfig host s _

theorem SameConfig.trans {a b c : State} (h1 : SameConfig a b) (h2 : SameConfig b c) :
    SameConfig a c := by
  obtain ⟨a1, a2, a3, a4, a5⟩ := h1
  obtain ⟨b1, b2, b3, b4, b5⟩ := h2
  exact ⟨b1.trans a1, b2.trans a2, b3.trans a3, b4.trans a4, b5.trans a5⟩

theorem run_sameConfig (host : Host) (transport : Transport) (n : Nat) (s : State) :
    SameConfig s (run host transport n s) := by
  induction n generalizing s with
  | zero => simp [run, SameConfig]
  | succ n ih =>
    simp only [run]
    cases hs : step host transport s with
    | none => simp [SameConfig]
    | some s' => exact (step_sameConfig host transport s s' hs).trans (ih s')

/-! ## The invariant -/

theorem attemptRequest_inv (host : Host) (s : State) (hq : queued s.pending = true)
    (h : Inv host s) : Inv host (attemptRequest s) := by
  obtain ⟨hr, ht, hp, hb, hu, _⟩ := h
  have hne : s.pending ≠ .idle := by
    intro h0; simp [h0, queued] at hq
  refine ⟨?_, ?_, ?_, ?_, ?_, ?_⟩
  · simp [attemptRequest, requestsOf_append, hr, requestsOf, List.replicate_succ']
  · simp [attemptRequest, timersOf_append, ht, timersOf]
  · unfold phaseOk at hp ⊢
    cases hpe : s.pending <;> simp_all [attemptRequest, queued]
  · simpa [attemptRequest] using hb
  · intro _
    have := hu hne
    simp [attemptRequest, parsesOf_append, this.1, this.2, parsesOf]
  · intro h0
    simp [attemptRequest] at h0

theorem callback_inv (host : Host) (s : State) (r : Response)
    (hp : s.pending = .inFlight) (h : Inv host s) : Inv host (callback host s r) := by
  obtain ⟨hr, ht, hph, hb, hu, _⟩ := h
  have hu' := hu (by simp [hp])
  have hc : s.calls = s.attempt + 1 := by
    unfold phaseOk at hph
    simpa [hp] using hph
  unfold callback
  split
  · split
    · rename_i hlt
      rw [jsLess_eq] at hlt
      have hlt' : unbounded host s.retries = true ∨
          s.attempt + 1 ≤ retryLimit host s.retries := by
        simpa using hlt
      refine ⟨?_, ?_, ?_, ?_, ?_, ?_⟩
      · simp [requestsOf_append, requestsOf_Log, requestsOf, hr]
      · simp [timersOf_append, timersOf_Log, timersOf, ht, List.replicate_succ']
      · simp [phaseOk, hc]
      · simpa using hlt'
      · intro _
        simp [parsesOf_append, parsesOf_Log, parsesOf, hu'.1, hu'.2]
      · intro h0
        simp at h0
    · refine ⟨?_, ?_, ?_, ?_, ?_, ?_⟩
      · simp [settle, requestsOf_append, requestsOf, hr]
      · simp [settle, timersOf_append, timersOf, ht]
      · simp [settle, phaseOk, hc]
      · simpa [settle] using hb
      · intro h0
        simp [settle] at h0
      · intro _
        simp [settle, hu'.1]
  · split
    · refine ⟨?_, ?_, ?_, ?_, ?_, ?_⟩
      · simp [settle, requestsOf_append, requestsOf_Log, requestsOf, hr]
      · simp [settle, timersOf_append, timersOf_Log, timersOf, ht]
      · simp [settle, phaseOk, hc]
      · simpa [settle] using hb
      · intro h0
        simp [settle] at h0
      · intro _
        simp [settle, hu'.1]
    · split
      · split
        · refine ⟨?_, ?_, ?_, ?_, ?_, ?_⟩
          · simp [settle, requestsOf_append, requestsOf, hr]
          · simp [settle, timersOf_append, timersOf, ht]
          · simp [settle, phaseOk, hc]
          · simpa [settle] using hb
          · intro h0
            simp [settle] at h0
          · intro _
            simp [settle, hu'.1]
        · refine ⟨?_, ?_, ?_, ?_, ?_, ?_⟩
          · simp [settle, requestsOf_append, requestsOf_Log, requestsOf, hr]
          · simp [settle, timersOf_append, timersOf_Log, timersOf, ht]
          · simp [settle, phaseOk, hc]
          · simpa [settle] using hb
          · intro h0
            simp [settle] at h0
          · intro _
            simp [settle, hu'.1]
      · refine ⟨?_, ?_, ?_, ?_, ?_, ?_⟩
        · simp [settle, requestsOf_append, requestsOf_Log, requestsOf, hr]
        · simp [settle, timersOf_append, timersOf_Log, timersOf, ht]
        · simp [settle, phaseOk, hc]
        · simpa [settle] using hb
        · intro h0
          simp [settle] at h0
        · intro _
          simp [settle, hu'.1]

theorem step_inv (host : Host) (transport : Transport) (s s' : State)
    (hs : step host transport s = some s') (h : Inv host s) : Inv host s' := by
  unfold step at hs
  cases hp : s.pending <;> simp [hp] at hs <;> subst hs
  · exact attemptRequest_inv host s (by simp [hp, queued]) h
  · exact attemptRequest_inv host s (by simp [hp, queued]) h
  · exact callback_inv host s _ hp h

theorem run_inv (host : Host) (transport : Transport) (n : Nat) (s : State)
    (h : Inv host s) : Inv host (run host transport n s) := by
  induction n generalizing s with
  | zero => simpa [run] using h
  | succ n ih =>
    simp only [run]
    cases hs : step host transport s with
    | none => simpa using h
    | some s' => exact ih s' (step_inv host transport s s' hs h)

/-! ## Properties of objects -/

theorem lookupField_filter_ne (k k' : String) (fs : Fields) (h : k' ≠ k) :
    lookupField k' (fs.filter (fun p => p.1 != k)) = lookupField k' fs := by
  induction fs with
  | nil => rfl
  | cons p rest ih =>
    obtain ⟨a, v⟩ := p
    rw [List.filter_cons]
    by_cases ha : a = k
    · subst ha
      have hne : ¬ a = k' := fun e => h e.symm
      simp [lookupField, ih, hne]
    · by_cases hk : a = k'
      · subst hk
        simp [lookupField, ha]
      · simp [lookupField, ha, hk, ih]

theorem lookupField_filter_self (k : String) (fs : Fields) :
    lookupField k (fs.filter (fun p => p.1 != k)) = none := by
  induction fs with
  | nil => rfl
  | cons p rest ih =>
    obtain ⟨a, v⟩ := p
    rw [List.filter_cons]
    by_cases ha : a = k
    · simp [ha, ih]
    · simp [lookupField, ha, ih]

theorem getProp_deleteProp_ne (o : JSVal) (k k' : String) (h : k' ≠ k) :
    getProp (deleteProp o k) k' = getProp o k' := by
  cases o <;> simp [getProp, deleteProp, lookupField_filter_ne _ _ _ h]

theorem ownProp_deleteProp_ne (o : JSVal) (k k' : String) (h : k' ≠ k) :
    ownProp (deleteProp o k) k' = ownProp o k' := by
  cases o <;> simp [ownProp, deleteProp, lookupField_filter_ne _ _ _ h]

theorem ownProp_deleteProp_self (o : JSVal) (k : String) :
    ownProp (deleteProp o k) k = none := by
  cases o <;> simp [ownProp, deleteProp, lookupField_filter_self]

theorem hasKey_eq_isSome (o : JSVal) (k : String) : hasKey o k = (ownProp o k).isSome := by
  cases o <;> simp [hasKey, ownProp]

theorem getProp_eq_getD (o : JSVal) (k : String) :
    getProp o k = (ownProp o k).getD .undefined := by
  cases o <;> simp [getProp, ownProp]

/-! ## The synchronous part -/

theorem MakeRequest_one (host : Host) (d : JSVal) (hd : isNullish d = false) :
    MakeRequest host [d] = .returned (initial host d) := by
  simp [MakeRequest, hd, initial, sanitize, preamble,
    getProp_deleteProp_ne]

theorem initial_inv (host : Host) (d : JSVal) : Inv host (initial host d) := by
  refine ⟨?_, ?_, ?_, ?_, ?_, ?_⟩
  · simp only [initial, preamble]
    split <;> split <;>
      simp [requestsOf_append, requestsOf_Log, requestsOf]
  · simp only [initial, preamble]
    split <;> split <;>
      simp [timersOf_append, timersOf_Log, timersOf]
  · simp [initial, phaseOk]
  · simp [initial]
  · intro _
    simp only [initial, preamble]
    split <;> split <;>
      simp [parsesOf_append, parsesOf_Log, parsesOf]
  · intro h0
    simp [initial] at h0

theorem invoke_one (host : Host) (transport : Transport) (fuel : Nat) (d : JSVal)
    (hd : isNullish d = false) :
    invoke host transport fuel [d] = some (run host transport fuel (initial host d)) := by
  simp [invoke, MakeRequest_one host d hd]

theorem transportCalls_eq_calls (host : Host) (s : State) (h : Inv host s) :
    transportCalls s.trace = s.calls := by
  simp [transportCalls, h.requests]

/-! ## One attempt -/

theorem round_retry (host : Host) (transport : Transport) (s : State)
    (herr : truthy (transport s.calls).err = true)
    (hlt : jsLess host s.attempt s.retries = true) :
    (round host transport s).pending = .timer s.retryDelay ∧
    (round host transport s).attempt = s.attempt + 1 ∧
    (round host transport s).calls = s.calls + 1 ∧
    (round host transport s).settled = s.settled := by
  simp [round, callback, attemptRequest, herr, hlt]

theorem round_exhausted (host : Host) (transport : Transport) (s : State)
    (herr : truthy (transport s.calls).err = true)
    (hge : jsLess host s.attempt s.retries = false) (hs : s.settled = none) :
    (round host transport s).pending = .idle ∧
    (round host transport s).attempt = s.attempt ∧
    (round host transport s).calls = s.calls + 1 ∧
    (round host transport s).settled = some (.reject (transport s.calls).err) := by
  simp [round, callback, attemptRequest, herr, hge, settle, hs]

theorem round_success (host : Host) (transport : Transport) (s : State)
    (herr : truthy (transport s.calls).err = false) (hs : s.settled = none) :
    (round host transport s).pending = .idle ∧
    (round host transport s).attempt = s.attempt ∧
    (round host transport s).calls = s.calls + 1 ∧
    (round host transport s).settled
      = some (shapeOutcome host s.returnFullResponse s.forceJSON (transport s.calls)) ∧
    parsesOf (round host transport s).trace = parsesOf s.trace ++
      (if truthy s.returnFullResponse then []
       else if truthy s.forceJSON then [toStr host (transport s.calls).body] else []) := by
  simp only [round, callback, herr, shapeOutcome]
  by_cases h1 : truthy s.returnFullResponse = true
  · simp [attemptRequest, settle, h1, hs, parsesOf_append, parsesOf_Log, parsesOf]
  · by_cases h2 : truthy s.forceJSON = true
    · cases hj : host.jsonParse (toStr host (transport s.calls).body) <;>
        simp [attemptRequest, settle, h1, h2, hs, hj, parsesOf_append, parsesOf_Log, parsesOf]
    · simp [attemptRequest, settle, h1, h2, hs, parsesOf_append, parsesOf_Log, parsesOf]

/-! ## Runs -/

/-- As long as the transport fails and the comparison `attempt < retries` holds,
every attempt is retried: after `k` such attempts the next one is queued. -/
theorem run_retried (host : Host) (transport : Transport) :
    ∀ (k : Nat) (s : State), queued s.pending = true → s.settled = none →
      (∀ i, i < k → truthy (transport (s.calls + i)).err = true) →
      (∀ i, i < k → jsLess host (s.attempt + i) s.retries = true) →
      queued (run host transport (2 * k) s).pending = true ∧
      (run host transport (2 * k) s).attempt = s.attempt + k ∧
      (run host transport (2 * k) s).calls = s.calls + k ∧
      (run host transport (2 * k) s).settled = none := by
  intro k
  induction k with
  | zero =>
    intro s hq hs _ _
    simp [run, hq, hs]
  | succ k ih =>
    intro s hq hs hfail hless
    have h0 : truthy (transport s.calls).err = true := by simpa using hfail 0 (by omega)
    obtain ⟨r1, r2, r3, r4⟩ := round_retry host transport s h0
      (by simpa using hless 0 (by omega))
    have hcfg := callback_sameConfig host (attemptRequest s) (transport s.calls)
    have hret : (round host transport s).retries = s.retries := by
      simpa [round, attemptRequest] using hcfg.2.1
    have e : 2 * (k + 1) = 2 * k + 2 := by ring
    rw [e, run_round host transport (2 * k) s hq]
    obtain ⟨q1, q2, q3, q4⟩ := ih (round host transport s) (by simp [r1, queued])
      (by rw [r4, hs])
      (by
        intro i hi
        rw [r3]
        have := hfail (i + 1) (by omega)
        rwa [show s.calls + 1 + i = s.calls + (i + 1) by omega])
      (by
        intro i hi
        rw [r2, hret]
        have := hless (i + 1) (by omega)
        rwa [show s.attempt + 1 + i = s.attempt + (i + 1) by omega])
    refine ⟨q1, ?_, ?_, q4⟩
    · rw [q2, r2]; omega
    · rw [q3, r3]; omega

theorem run_failures (host : Host) (transport : Transport) :
    ∀ (k : Nat) (s : State), queued s.pending = true → s.settled = none →
      (∀ i, i < k → truthy (transport (s.calls + i)).err = true) →
      s.attempt + k ≤ retryLimit host s.retries →
      queued (run host transport (2 * k) s).pending = true ∧
      (run host transport (2 * k) s).attempt = s.attempt + k ∧
      (run host transport (2 * k) s).calls = s.calls + k ∧
      (run host transport (2 * k) s).settled = none := by
  intro k s hq hs hfail hle
  exact run_retried host transport k s hq hs hfail
    (fun i hi => jsLess_of_lt host _ _ (by omega))

theorem run_settles (host : Host) (transport : Transport) (s : State) (fuel : Nat)
    (hq : queued s.pending = true) (hidle : (round host transport s).pending = .idle)
    (hf : 2 ≤ fuel) : run host transport fuel s = round host transport s := by
  obtain ⟨m, rfl⟩ : ∃ m, fuel = m + 2 := ⟨fuel - 2, by omega⟩
  rw [run_round host transport m s hq, run_idle host transport m _ hidle]

/-- After `k` failed attempts that were all retried, one more attempt that
settles the promise ends the run, whatever fuel is left. -/
theorem run_failures_then (host : Host) (transport : Transport) (k fuel : Nat) (s : State)
    (hq : queued s.pending = true) (hs : s.settled = none)
    (hfail : ∀ i, i < k → truthy (transport (s.calls + i)).err = true)
    (hless : ∀ i, i < k → jsLess host (s.attempt + i) s.retries = true)
    (hidle : (round host transport (run host transport (2 * k) s)).pending = .idle)
    (hf : 2 * (k + 1) ≤ fuel) :
    run host transport fuel s = round host transport (run host transport (2 * k) s) := by
  obtain ⟨q1, _, _, _⟩ := run_retried host transport k s hq hs hfail hless
  obtain ⟨m, rfl⟩ : ∃ m, fuel = 2 * k + m := ⟨fuel - 2 * k, by omega⟩
  rw [run_add]
  exact run_settles host transport _ m q1 hidle (by omega)

/-! ## Whole invocations -/

/-- Every attempt up to the limit fails: the run ends in the rejection of the
last attempt, after one call more than the limit. -/
theorem run_exhausted (host : Host) (transport : Transport) (d : JSVal) (fuel : Nat)
    (hfin : unbounded host (initial host d).retries = false)
    (hfail : ∀ i, i ≤ retryLimit host (initial host d).retries →
      truthy (transport i).err = true)
    (hf : 2 * (retryLimit host (initial host d).retries + 1) ≤ fuel) :
    (run host transport fuel (initial host d)).pending = .idle ∧
    (run host transport fuel (initial host d)).attempt
      = retryLimit host (initial host d).retries ∧
    (run host transport fuel (initial host d)).calls
      = retryLimit host (initial host d).retries + 1 ∧
    (run host transport fuel (initial host d)).settled
      = some (.reject (transport (retryLimit host (initial host d).retries)).err) := by
  have hq : queued (initial host d).pending = true := by simp [initial, queued]
  have hs : (initial host d).settled = none := by simp [initial]
  have ha : (initial host d).attempt = 0 := by simp [initial]
  have hc : (initial host d).calls = 0 := by simp [initial]
  have hfail' : ∀ i, i < retryLimit host (initial host d).retries →
      truthy (transport ((initial host d).calls + i)).err = true := by
    intro i hi
    rw [hc, Nat.zero_add]
    exact hfail i (by omega)
  have hle : (initial host d).attempt + retryLimit host (initial host d).retries
      ≤ retryLimit host (initial host d).retries := by omega
  obtain ⟨q1, q2, q3, q4⟩ := run_failures host transport _ _ hq hs hfail' hle
  have hcfg := run_sameConfig host transport
    (2 * retryLimit host (initial host d).retries) (initial host d)
  have hlast : truthy (transport (run host transport
      (2 * retryLimit host (initial host d).retries) (initial host d)).calls).err = true := by
    rw [q3, hc, Nat.zero_add]
    exact hfail _ (le_refl _)
  obtain ⟨e1, e2, e3, e4⟩ := round_exhausted host transport _ hlast
    (jsLess_of_ge host _ _ (by rw [hcfg.2.1]; exact hfin)
      (by rw [hcfg.2.1, q2, ha]; omega)) q4
  rw [run_failures_then host transport _ fuel _ hq hs hfail'
    (fun i hi => jsLess_of_lt host _ _ (by omega)) e1 hf]
  refine ⟨e1, ?_, ?_, ?_⟩
  · rw [e2, q2, ha, Nat.zero_add]
  · rw [e3, q3, hc, Nat.zero_add]
  · rw [e4, q3, hc, Nat.zero_add]

/-- The first `k` attempts fail, `k` is within the limit (or there is no
limit) and attempt `k + 1` succeeds: the run ends with the shaping of that
answer, after `k + 1` calls. -/
theorem run_success (host : Host) (transport : Transport) (d : JSVal) (k fuel : Nat)
    (hk : unbounded host (initial host d).retries = true ∨
      k ≤ retryLimit host (initial host d).retries)
    (hfail : ∀ i, i < k → truthy (transport i).err = true)
    (hok : truthy (transport k).err = false)
    (hf : 2 * (k + 1) ≤ fuel) :
    (run host transport fuel (initial host d)).pending = .idle ∧
    (run host transport fuel (initial host d)).attempt = k ∧
    (run host transport fuel (initial host d)).calls = k + 1 ∧
    (run host transport fuel (initial host d)).settled
      = some (shapeOutcome host (initial host d).returnFullResponse
          (initial host d).forceJSON (transport k)) ∧
    parsesOf (run host transport fuel (initial host d)).trace =
      (if truthy (initial host d).returnFullResponse then []
       else if truthy (initial host d).forceJSON then [toStr host (transport k).body]
       else []) := by
  have hq : queued (initial host d).pending = true := by simp [initial, queued]
  have hs : (initial host d).settled = none := by simp [initial]
  have ha : (initial host d).attempt = 0 := by simp [initial]
  have hc : (initial host d).calls = 0 := by simp [initial]
  have hfail' : ∀ i, i < k →
      truthy (transport ((initial host d).calls + i)).err = true := by
    intro i hi
    rw [hc, Nat.zero_add]
    exact hfail i hi
  have hless : ∀ i, i < k →
      jsLess host ((initial host d).attempt + i) (initial host d).retries = true := by
    intro i hi
    rcases hk with hk | hk
    · exact jsLess_of_unbounded host _ _ hk
    · exact jsLess_of_lt host _ _ (by omega)
  obtain ⟨q1, q2, q3, q4⟩ := run_retried host transport _ _ hq hs hfail' hless
  have hcfg := run_sameConfig host transport (2 * k) (initial host d)
  have hinv := run_inv host transport (2 * k) _ (initial_inv host d)
  have hpending : (run host transport (2 * k) (initial host d)).pending ≠ .idle := by
    intro h0
    rw [h0] at q1
    simp [queued] at q1
  have hnoparse := (hinv.unsettled hpending).2
  have hlast : truthy (transport (run host transport (2 * k) (initial host d)).calls).err
      = false := by
    rw [q3, hc, Nat.zero_add]
    exact hok
  obtain ⟨e1, e2, e3, e4, e5⟩ := round_success host transport _ hlast q4
  rw [run_failures_then host transport _ fuel _ hq hs hfail' hless e1 hf]
  refine ⟨e1, ?_, ?_, ?_, ?_⟩
  · rw [e2, q2, ha, Nat.zero_add]
  · rw [e3, q3, hc, Nat.zero_add]
  · rw [e4, q3, hc, Nat.zero_add, hcfg.2.2.2.1, hcfg.2.2.2.2]
  · rw [e5, hnoparse, q3, hc, Nat.zero_add, hcfg.2.2.2.1, hcfg.2.2.2.2, List.nil_append]

theorem truthy_jsOr_false (a : JSVal) : truthy (jsOr a (.bool false)) = truthy a := by
  unfold jsOr
  split
  · rfl
  · rename_i h
    simp only [Bool.not_eq_true] at h
    rw [h]
    rfl

theorem retryLimit_num (host : Host) (n : Int) : retryLimit host (.num n) = n.toNat := by
  simp [retryLimit, toNum, toNumeric]

theorem invoke_some (host : Host) (transport : Transport) (fuel : Nat) (d : JSVal)
    (s : State) (h : invoke host transport fuel [d] = some s) :
    isNullish d = false ∧ s = run host transport fuel (initial host d) := by
  cases hd : isNullish d with
  | true =>
    have : MakeRequest host [d]
        = .threw (mkError "TypeError" "Cannot read properties of undefined")
          (if host.IsDebug && host.OfflineTests then [.offlineSetup, .disableNetConnect]
           else []) := by
      simp [MakeRequest, hd]
    simp [invoke, this] at h
  | false =>
    rw [invoke_one host transport fuel d hd] at h
    exact ⟨rfl, (Option.some.inj h).symm⟩

/-- Every descriptor handed to `request` during an invocation is the
sanitized descriptor. -/
theorem request_is_sanitized (host : Host) (transport : Transport) (fuel : Nat) (d : JSVal)
    (s : State) (h : invoke host transport fuel [d] = some s) (x : JSVal)
    (hx : Event.request x ∈ s.trace) : x = sanitize d := by
  obtain ⟨_, rfl⟩ := invoke_some host transport fuel d s h
  have hinv := run_inv host transport fuel _ (initial_inv host d)
  have hcfg := run_sameConfig host transport fuel (initial host d)
  have hmem : x ∈ requestsOf (run host transport fuel (initial host d)).trace :=
    (mem_requestsOf x _).2 hx
  rw [hinv.requests] at hmem
  rw [List.eq_of_mem_replicate hmem, hcfg.1]
  rfl

theorem not_nullish_of_truthy_getProp (d : JSVal) (k : String)
    (h : truthy (getProp d k) = true) : isNullish d = false := by
  cases d <;> simp_all [getProp, truthy, isNullish]

theorem not_nullish_of_ownProp (d : JSVal) (k : String) (v : JSVal)
    (h : ownProp d k = some v) : isNullish d = false := by
  cases d <;> simp_all [ownProp, isNullish]

theorem initial_returnFullResponse (host : Host) (d : JSVal) :
    truthy (initial host d).returnFullResponse = truthy (getProp d "returnFullResponse") :=
  truthy_jsOr_false _

theorem initial_forceJSON (host : Host) (d : JSVal) :
    truthy (initial host d).forceJSON = truthy (getProp d "forceJSON") :=
  truthy_jsOr_false _

/-! ## The claims -/

/-- C1, at the input where the code departs from it: with `retries: R` in the
descriptor and a transport that fails on every attempt, the invocation makes
`R + 1` calls of the transport when `R ≥ 1`, but four calls when `R = 0`
(`0 || 3` is `3`), and then rejects with the error of the last call. -/
theorem C1_zero_retries_become_three (host : Host) (transport : Transport)
    (fields : Fields) (R fuel : Nat)
    (hR : lookupField "retries" fields = some (.num R))
    (hfail : ∀ i, truthy (transport i).err = true)
    (hf : 2 * ((if R = 0 then 3 else R) + 1) ≤ fuel) :
    ∃ s, invoke host transport fuel [.obj fields] = some s ∧
      transportCalls s.trace = (if R = 0 then 3 else R) + 1 ∧
      s.settled = some (.reject (transport (if R = 0 then 3 else R)).err) := by
  have hlim : retryLimit host (initial host (.obj fields)).retries
      = if R = 0 then 3 else R := by
    by_cases h0 : R = 0
    · subst h0
      simp [initial, getProp, hR, jsOr, truthy, retryLimit_num]
    · have : ¬ ((R : Int) = 0) := by exact_mod_cast h0
      simp [initial, getProp, hR, jsOr, truthy, retryLimit_num, h0, this]
  have hfin : unbounded host (initial host (.obj fields)).retries = false := by
    by_cases h0 : R = 0
    · subst h0
      simp [initial, getProp, hR, jsOr, truthy, unbounded_num]
    · have : ¬ ((R : Int) = 0) := by exact_mod_cast h0
      simp [initial, getProp, hR, jsOr, truthy, unbounded_num, this]
  obtain ⟨_, _, e3, e4⟩ := run_exhausted host transport (.obj fields) fuel hfin
    (fun i _ => hfail i) (by rw [hlim]; exact hf)
  refine ⟨_, invoke_one host transport fuel _ rfl, ?_, ?_⟩
  · rw [transportCalls_eq_calls host _ (run_inv host transport fuel _ (initial_inv host _)),
      e3, hlim]
  · rw [e4, hlim]

/-- Witness for C1: the descriptor `{url: "u", retries: 0}` with a transport
that always fails makes four calls and rejects with the error of the fourth. -/
theorem C1_zero_retries_become_three_witness :
    lookupField "retries" [("url", .str "u"), ("retries", .num 0)] = some (.num (0 : Nat)) ∧
    (∀ i, truthy (alwaysFails i).err = true) ∧
    ∃ s, invoke sampleHost alwaysFails 8 [.obj [("url", .str "u"), ("retries", .num 0)]]
        = some s ∧
      transportCalls s.trace = 4 ∧ s.settled = some (.reject (alwaysFails 3).err) :=
  ⟨rfl, fun _ => rfl,
    C1_zero_retries_become_three sampleHost alwaysFails
      [("url", .str "u"), ("retries", .num 0)] 0 8 rfl (fun _ => rfl) (by decide)⟩

/-- C2 does not hold as stated: with `retries: 1` and `forceJSON: true`, a
transport that succeeds on the first attempt with the body `not json` gets one
call, and the promise is rejected with the parse failure, not resolved. -/
theorem C2_counterexample_parse_failure :
    truthy (failsThenAnswers 0 (.str "not json") 0).err = false ∧
    ∃ s, invoke sampleHost (failsThenAnswers 0 (.str "not json")) 2
        [.obj [("url", .str "u"), ("retries", .num 1), ("forceJSON", .bool true)]] = some s ∧
      transportCalls s.trace = 1 ∧
      s.settled = some (.reject (.str
        "Unable to parse not json into a JSON object: SyntaxError: Unexpected token in JSON")) ∧
      ∀ v, s.settled ≠ some (.resolve v) :=
  ⟨rfl, _, rfl, rfl, rfl, fun _ h => Outcome.noConfusion (Option.some.inj h)⟩

/-- C2 (amended): with `retries: R`, `R ≥ 1`, and `K ≤ R`, a transport that
fails on the first `K` attempts and succeeds on attempt `K + 1` gets exactly
`K + 1` calls, however long the event loop runs afterwards, and the promise is
settled with the shaping of that answer: resolved with the response, the
parsed body or the raw body, or rejected with the parse failure when
`forceJSON` is set, `returnFullResponse` is not, and the body does not parse. -/
theorem C2_success_after_failures (host : Host) (transport : Transport)
    (fields : Fields) (R K fuel : Nat) (hR1 : 1 ≤ R) (hK : K ≤ R)
    (hR : lookupField "retries" fields = some (.num R))
    (hfail : ∀ i, i < K → truthy (transport i).err = true)
    (hok : truthy (transport K).err = false)
    (hf : 2 * (K + 1) ≤ fuel) :
    ∃ s, invoke host transport fuel [.obj fields] = some s ∧
      transportCalls s.trace = K + 1 ∧
      s.settled = some (shapeOutcome host
        (jsOr (getProp (.obj fields) "returnFullResponse") (.bool false))
        (jsOr (getProp (.obj fields) "forceJSON") (.bool false)) (transport K)) ∧
      ((∃ v, s.settled = some (.resolve v)) ∨
        (truthy (getProp (.obj fields) "returnFullResponse") = false ∧
          truthy (getProp (.obj fields) "forceJSON") = true ∧
          ∃ e, host.jsonParse (toStr host (transport K).body) = .error e)) := by
  have hlim : retryLimit host (initial host (.obj fields)).retries = R := by
    have : ¬ ((R : Int) = 0) := by omega
    simp [initial, getProp, hR, jsOr, truthy, retryLimit_num, this]
  obtain ⟨_, _, e3, e4, _⟩ := run_success host transport (.obj fields) K fuel
    (Or.inr (by rw [hlim]; exact hK)) hfail hok hf
  have hset : (run host transport fuel (initial host (.obj fields))).settled
      = some (shapeOutcome host
        (jsOr (getProp (.obj fields) "returnFullResponse") (.bool false))
        (jsOr (getProp (.obj fields) "forceJSON") (.bool false)) (transport K)) := e4
  refine ⟨_, invoke_one host transport fuel _ rfl, ?_, hset, ?_⟩
  · rw [transportCalls_eq_calls host _ (run_inv host transport fuel _ (initial_inv host _)),
      e3]
  · rw [hset]
    unfold shapeOutcome
    simp only [truthy_jsOr_false]
    by_cases h1 : truthy (getProp (.obj fields) "returnFullResponse") = true
    · left
      simp [h1]
    · by_cases h2 : truthy (getProp (.obj fields) "forceJSON") = true
      · cases hj : host.jsonParse (toStr host (transport K).body) with
        | error e =>
          right
          exact ⟨by simpa using h1, h2, e, rfl⟩
        | ok v =>
          left
          simp [h1, h2]
      · left
        simp [h1, h2]

/-- Witness for C2 (amended): `retries: 2`, two failures, then the body `true`
with `forceJSON`. -/
theorem C2_success_after_failures_witness :
    1 ≤ 2 ∧ 2 ≤ 2 ∧
    lookupField "retries" [("retries", .num 2), ("forceJSON", .bool true)]
      = some (.num (2 : Nat)) ∧
    (∀ i, i < 2 → truthy (failsThenAnswers 2 (.str "true") i).err = true) ∧
    truthy (failsThenAnswers 2 (.str "true") 2).err = false ∧
    ∃ s, invoke sampleHost (failsThenAnswers 2 (.str "true")) 6
        [.obj [("retries", .num 2), ("forceJSON", .bool true)]] = some s ∧
      transportCalls s.trace = 2 + 1 ∧
      s.settled = some (shapeOutcome sampleHost
        (jsOr (getProp (.obj [("retries", .num 2), ("forceJSON", .bool true)])
          "returnFullResponse") (.bool false))
        (jsOr (getProp (.obj [("retries", .num 2), ("forceJSON", .bool true)])
          "forceJSON") (.bool false)) (failsThenAnswers 2 (.str "true") 2)) ∧
      ((∃ v, s.settled = some (.resolve v)) ∨
        (truthy (getProp (.obj [("retries", .num 2), ("forceJSON", .bool true)])
            "returnFullResponse") = false ∧
          truthy (getProp (.obj [("retries", .num 2), ("forceJSON", .bool true)])
            "forceJSON") = true ∧
          ∃ e, sampleHost.jsonParse
            (toStr sampleHost (failsThenAnswers 2 (.str "true") 2).body) = .error e)) :=
  have hfail : ∀ i, i < 2 → truthy (failsThenAnswers 2 (.str "true") i).err = true := by
    intro i hi
    simp [failsThenAnswers, hi, sampleError, truthy]
  ⟨by decide, by decide, rfl, hfail, rfl,
    C2_success_after_failures sampleHost (failsThenAnswers 2 (.str "true"))
      [("retries", .num 2), ("forceJSON", .bool true)] 2 2 6 (by decide) (by decide) rfl
      hfail rfl (by decide)⟩

/-- C3 does not hold as stated: the code reads and deletes the key
`retryDelay`, so a descriptor that supplies `retryDelayMs` reaches the
transport with that key. -/
theorem C3_counterexample_retryDelayMs :
    ∃ s x, invoke sampleHost alwaysFails 1
        [.obj [("url", .str "u"), ("retries", .num 2), ("retryDelayMs", .num 500),
          ("returnFullResponse", .bool true), ("forceJSON", .bool true)]] = some s ∧
      requestsOf s.trace = [x] ∧ hasKey x "retryDelayMs" = true :=
  ⟨_, .obj [("url", .str "u"), ("retryDelayMs", .num 500)], rfl, rfl, rfl⟩

/-- C3 (amended): for every descriptor, the object handed to the transport on
every attempt contains none of the keys `retries`, `retryDelay`,
`returnFullResponse`, `forceJSON`. -/
theorem C3_control_keys_removed (host : Host) (transport : Transport) (fuel : Nat)
    (d : JSVal) (s : State) (h : invoke host transport fuel [d] = some s) (x : JSVal)
    (hx : Event.request x ∈ s.trace) :
    hasKey x "retries" = false ∧ hasKey x "retryDelay" = false ∧
    hasKey x "returnFullResponse" = false ∧ hasKey x "forceJSON" = false := by
  rw [request_is_sanitized host transport fuel d s h x hx]
  simp only [hasKey_eq_isSome, sanitize]
  refine ⟨?_, ?_, ?_, ?_⟩
  · rw [ownProp_deleteProp_ne _ _ _ (by decide), ownProp_deleteProp_ne _ _ _ (by decide),
      ownProp_deleteProp_ne _ _ _ (by decide), ownProp_deleteProp_self]
    rfl
  · rw [ownProp_deleteProp_ne _ _ _ (by decide), ownProp_deleteProp_ne _ _ _ (by decide),
      ownProp_deleteProp_self]
    rfl
  · rw [ownProp_deleteProp_ne _ _ _ (by decide), ownProp_deleteProp_self]
    rfl
  · rw [ownProp_deleteProp_self]
    rfl

/-- Witness for C3 (amended): a descriptor that supplies all four control
keys; the first call of the transport gets only `url`. -/
theorem C3_control_keys_removed_witness :
    (∃ s, invoke sampleHost alwaysFails 1
        [.obj [("url", .str "u"), ("retries", .num 2), ("retryDelay", .num 500),
          ("returnFullResponse", .bool true), ("forceJSON", .bool true)]] = some s ∧
      Event.request (.obj [("url", .str "u")]) ∈ s.trace) ∧
    (hasKey (.obj [("url", .str "u")]) "retries" = false ∧
      hasKey (.obj [("url", .str "u")]) "retryDelay" = false ∧
      hasKey (.obj [("url", .str "u")]) "returnFullResponse" = false ∧
      hasKey (.obj [("url", .str "u")]) "forceJSON" = false) :=
  ⟨⟨_, rfl, List.Mem.tail _ (List.Mem.head _)⟩,
    C3_control_keys_removed sampleHost alwaysFails 1
      (.obj [("url", .str "u"), ("retries", .num 2), ("retryDelay", .num 500),
        ("returnFullResponse", .bool true), ("forceJSON", .bool true)]) _ rfl
      (.obj [("url", .str "u")]) (List.Mem.tail _ (List.Mem.head _))⟩

/-- C4 does not hold as stated: `retryDelay` is a key other than `retries`,
`retryDelayMs`, `returnFullResponse` and `forceJSON`, the caller's descriptor
has it, and the object handed to the transport does not. -/
theorem C4_counterexample_retryDelay :
    "retryDelay" ∉ ["retries", "retryDelayMs", "returnFullResponse", "forceJSON"] ∧
    ∃ s x, invoke sampleHost alwaysFails 1
        [.obj [("url", .str "u"), ("retryDelay", .num 500)]] = some s ∧
      requestsOf s.trace = [x] ∧
      ownProp (.obj [("url", .str "u"), ("retryDelay", .num 500)]) "retryDelay"
        = some (.num 500) ∧
      ownProp x "retryDelay" = none :=
  ⟨by decide, _, .obj [("url", .str "u")], rfl, rfl, rfl, rfl⟩

/-- C4 (amended): for every descriptor and every key other than `retries`,
`retryDelay`, `returnFullResponse` and `forceJSON`, the object handed to the
transport on every attempt has that key exactly when the caller's descriptor
had it, with the same value. -/
theorem C4_other_keys_pass_through (host : Host) (transport : Transport) (fuel : Nat)
    (d : JSVal) (s : State) (h : invoke host transport fuel [d] = some s) (x : JSVal)
    (hx : Event.request x ∈ s.trace) (k : String)
    (h1 : k ≠ "retries") (h2 : k ≠ "retryDelay") (h3 : k ≠ "returnFullResponse")
    (h4 : k ≠ "forceJSON") :
    ownProp x k = ownProp d k := by
  rw [request_is_sanitized host transport fuel d s h x hx]
  unfold sanitize
  rw [ownProp_deleteProp_ne _ _ _ h4, ownProp_deleteProp_ne _ _ _ h3,
    ownProp_deleteProp_ne _ _ _ h2, ownProp_deleteProp_ne _ _ _ h1]

/-- Witness for C4 (amended): the key `retryDelayMs` of the caller's
descriptor reaches the transport with its value. -/
theorem C4_other_keys_pass_through_witness :
    (∃ s, invoke sampleHost alwaysFails 1
        [.obj [("url", .str "u"), ("retries", .num 2), ("retryDelayMs", .num 500)]] = some s ∧
      Event.request (.obj [("url", .str "u"), ("retryDelayMs", .num 500)]) ∈ s.trace) ∧
    "retryDelayMs" ≠ "retries" ∧ "retryDelayMs" ≠ "retryDelay" ∧
    "retryDelayMs" ≠ "returnFullResponse" ∧ "retryDelayMs" ≠ "forceJSON" ∧
    ownProp (.obj [("url", .str "u"), ("retryDelayMs", .num 500)]) "retryDelayMs"
      = ownProp (.obj [("url", .str "u"), ("retries", .num 2), ("retryDelayMs", .num 500)])
          "retryDelayMs" :=
  ⟨⟨_, rfl, List.Mem.tail _ (List.Mem.head _)⟩, by decide, by decide, by decide, by decide,
    C4_other_keys_pass_through sampleHost alwaysFails 1
      (.obj [("url", .str "u"), ("retries", .num 2), ("retryDelayMs", .num 500)]) _ rfl
      (.obj [("url", .str "u"), ("retryDelayMs", .num 500)])
      (List.Mem.tail _ (List.Mem.head _)) "retryDelayMs"
      (by decide) (by decide) (by decide) (by decide)⟩

/-- C5: a call of `MakeRequest` with any number of arguments other than one
throws synchronously, and when it throws nothing has happened: the trace is
empty, so no transport call was made and no timer or next-tick callback was
scheduled, and no promise exists that could schedule one later. -/
theorem C5_wrong_arity_throws (host : Host) (args : List JSVal) (h : args.length ≠ 1) :
    (∃ e, MakeRequest host args = .threw e []) ∧
    ∀ transport fuel, invoke host transport fuel args = none := by
  have hthrow : MakeRequest host args
      = .threw (mkError "Error" "HTTP requires 1 argument. The network object configuration")
          [] := by
    simp [MakeRequest, h]
  exact ⟨⟨_, hthrow⟩, fun transport fuel => by simp [invoke, hthrow]⟩

/-- Witness for C5: a call with two arguments. -/
theorem C5_wrong_arity_throws_witness :
    [JSVal.obj [("url", .str "u")], JSVal.num 1].length ≠ 1 ∧
    ((∃ e, MakeRequest sampleHost [.obj [("url", .str "u")], .num 1] = .threw e []) ∧
      ∀ transport fuel,
        invoke sampleHost transport fuel [.obj [("url", .str "u")], .num 1] = none) :=
  ⟨by decide, C5_wrong_arity_throws sampleHost [.obj [("url", .str "u")], .num 1] (by decide)⟩

/-- C6: with `returnFullResponse: true`, a successful transmission (after any
number of retried failures) resolves the promise with exactly the response
object of the transport, and `JSON.parse` is never called, whatever
`forceJSON` and the body are. -/
theorem C6_full_response_unparsed (host : Host) (transport : Transport) (d : JSVal)
    (K fuel : Nat)
    (hfull : getProp d "returnFullResponse" = .bool true)
    (hK : unbounded host (jsOr (getProp d "retries") (.num 3)) = true ∨
      K ≤ retryLimit host (jsOr (getProp d "retries") (.num 3)))
    (hfail : ∀ i, i < K → truthy (transport i).err = true)
    (hok : truthy (transport K).err = false)
    (hf : 2 * (K + 1) ≤ fuel) :
    ∃ s, invoke host transport fuel [d] = some s ∧
      s.settled = some (.resolve (transport K).resp) ∧
      ∀ t, Event.parse t ∉ s.trace := by
  have ht : truthy (getProp d "returnFullResponse") = true := by rw [hfull]; rfl
  have hd := not_nullish_of_truthy_getProp d _ ht
  obtain ⟨_, _, _, e4, e5⟩ := run_success host transport d K fuel hK hfail hok hf
  refine ⟨_, invoke_one host transport fuel d hd, ?_, ?_⟩
  · rw [e4]
    unfold shapeOutcome
    rw [initial_returnFullResponse, ht]
    rfl
  · intro t hmem
    have := (mem_parsesOf t _).2 hmem
    rw [e5, initial_returnFullResponse, ht] at this
    simp at this

/-- Witness for C6: `forceJSON` is set too and the body is not JSON; the
promise still resolves with the response object. -/
theorem C6_full_response_unparsed_witness :
    getProp (.obj [("returnFullResponse", .bool true), ("forceJSON", .bool true)])
      "returnFullResponse" = .bool true ∧
    1 ≤ retryLimit sampleHost
      (jsOr (getProp (.obj [("returnFullResponse", .bool true), ("forceJSON", .bool true)])
        "retries") (.num 3)) ∧
    (∀ i, i < 1 → truthy (failsThenAnswers 1 (.str "not json") i).err = true) ∧
    truthy (failsThenAnswers 1 (.str "not json") 1).err = false ∧
    ∃ s, invoke sampleHost (failsThenAnswers 1 (.str "not json")) 4
        [.obj [("returnFullResponse", .bool true), ("forceJSON", .bool true)]] = some s ∧
      s.settled = some (.resolve (failsThenAnswers 1 (.str "not json") 1).resp) ∧
      ∀ t, Event.parse t ∉ s.trace :=
  have hfail : ∀ i, i < 1 → truthy (failsThenAnswers 1 (.str "not json") i).err = true := by
    intro i hi
    simp [failsThenAnswers, hi, sampleError, truthy]
  ⟨rfl, by decide, hfail, rfl,
    C6_full_response_unparsed sampleHost (failsThenAnswers 1 (.str "not json"))
      (.obj [("returnFullResponse", .bool true), ("forceJSON", .bool true)]) 1 4 rfl
      (by decide) hfail rfl (by decide)⟩

/-- C7: with `returnFullResponse` not set and `forceJSON` set, a successful
transmission whose body parses as JSON resolves the promise with the parsed
value. -/
theorem C7_parsed_body (host : Host) (transport : Transport) (d : JSVal)
    (K fuel : Nat) (v : JSVal)
    (hfull : truthy (getProp d "returnFullResponse") = false)
    (hjson : truthy (getProp d "forceJSON") = true)
    (hK : unbounded host (jsOr (getProp d "retries") (.num 3)) = true ∨
      K ≤ retryLimit host (jsOr (getProp d "retries") (.num 3)))
    (hfail : ∀ i, i < K → truthy (transport i).err = true)
    (hok : truthy (transport K).err = false)
    (hparse : host.jsonParse (toStr host (transport K).body) = .ok v)
    (hf : 2 * (K + 1) ≤ fuel) :
    ∃ s, invoke host transport fuel [d] = some s ∧
      s.settled = some (.resolve v) ∧
      parsesOf s.trace = [toStr host (transport K).body] := by
  have hd := not_nullish_of_truthy_getProp d _ hjson
  obtain ⟨_, _, _, e4, e5⟩ := run_success host transport d K fuel hK hfail hok hf
  refine ⟨_, invoke_one host transport fuel d hd, ?_, ?_⟩
  · rw [e4]
    unfold shapeOutcome
    rw [initial_returnFullResponse, initial_forceJSON, hfull, hjson, hparse]
    rfl
  · rw [e5, initial_returnFullResponse, initial_forceJSON, hfull, hjson]
    rfl

/-- Witness for C7: the body `true` is parsed into the boolean. -/
theorem C7_parsed_body_witness :
    truthy (getProp (.obj [("url", .str "u"), ("forceJSON", .bool true)])
      "returnFullResponse") = false ∧
    truthy (getProp (.obj [("url", .str "u"), ("forceJSON", .bool true)]) "forceJSON")
      = true ∧
    0 ≤ retryLimit sampleHost
      (jsOr (getProp (.obj [("url", .str "u"), ("forceJSON", .bool true)]) "retries")
        (.num 3)) ∧
    (∀ i, i < 0 → truthy (failsThenAnswers 0 (.str "true") i).err = true) ∧
    truthy (failsThenAnswers 0 (.str "true") 0).err = false ∧
    sampleHost.jsonParse (toStr sampleHost (failsThenAnswers 0 (.str "true") 0).body)
      = .ok (.bool true) ∧
    ∃ s, invoke sampleHost (failsThenAnswers 0 (.str "true")) 2
        [.obj [("url", .str "u"), ("forceJSON", .bool true)]] = some s ∧
      s.settled = some (.resolve (.bool true)) ∧
      parsesOf s.trace = [toStr sampleHost (failsThenAnswers 0 (.str "true") 0).body] :=
  ⟨rfl, rfl, by decide, fun _ hi => absurd hi (Nat.not_lt_zero _), rfl, rfl,
    C7_parsed_body sampleHost (failsThenAnswers 0 (.str "true"))
      (.obj [("url", .str "u"), ("forceJSON", .bool true)]) 0 2 (.bool true) rfl rfl
      (by decide) (fun _ hi => absurd hi (Nat.not_lt_zero _)) rfl rfl (by decide)⟩

/-- C8: with `returnFullResponse` not set and `forceJSON` set, a successful
transmission whose body does not parse rejects the promise with a text made of
the raw body text and the text of the parse error; the transport has been
called `K + 1` times and is not called again however long the event loop runs,
the attempt counter is still `K`, no further timer was set and nothing is
queued, even when `K` is below the retry limit. -/
theorem C8_parse_failure_rejects (host : Host) (transport : Transport) (d : JSVal)
    (K fuel : Nat) (e : String)
    (hfull : truthy (getProp d "returnFullResponse") = false)
    (hjson : truthy (getProp d "forceJSON") = true)
    (hK : unbounded host (jsOr (getProp d "retries") (.num 3)) = true ∨
      K ≤ retryLimit host (jsOr (getProp d "retries") (.num 3)))
    (hfail : ∀ i, i < K → truthy (transport i).err = true)
    (hok : truthy (transport K).err = false)
    (hparse : host.jsonParse (toStr host (transport K).body) = .error e)
    (hf : 2 * (K + 1) ≤ fuel) :
    ∃ s, invoke host transport fuel [d] = some s ∧
      s.settled = some (.reject (.str
        ("Unable to parse " ++ toStr host (transport K).body ++ " into a JSON object: " ++ e))) ∧
      transportCalls s.trace = K + 1 ∧ s.attempt = K ∧
      (timersOf s.trace).length = K ∧ s.pending = .idle := by
  have hd := not_nullish_of_truthy_getProp d _ hjson
  obtain ⟨e1, e2, e3, e4, _⟩ := run_success host transport d K fuel hK hfail hok hf
  have hinv := run_inv host transport fuel _ (initial_inv host d)
  refine ⟨_, invoke_one host transport fuel d hd, ?_, ?_, e2, ?_, e1⟩
  · rw [e4]
    unfold shapeOutcome
    rw [initial_returnFullResponse, initial_forceJSON, hfull, hjson, hparse]
    rfl
  · rw [transportCalls_eq_calls host _ hinv, e3]
  · rw [hinv.timers, List.length_replicate, e2]

/-- Witness for C8: the body `not json` on the first attempt, with the default
three retries all unused. -/
theorem C8_parse_failure_rejects_witness :
    truthy (getProp (.obj [("url", .str "u"), ("forceJSON", .bool true)])
      "returnFullResponse") = false ∧
    truthy (getProp (.obj [("url", .str "u"), ("forceJSON", .bool true)]) "forceJSON")
      = true ∧
    0 ≤ retryLimit sampleHost
      (jsOr (getProp (.obj [("url", .str "u"), ("forceJSON", .bool true)]) "retries")
        (.num 3)) ∧
    (∀ i, i < 0 → truthy (failsThenAnswers 0 (.str "not json") i).err = true) ∧
    truthy (failsThenAnswers 0 (.str "not json") 0).err = false ∧
    sampleHost.jsonParse (toStr sampleHost (failsThenAnswers 0 (.str "not json") 0).body)
      = .error "SyntaxError: Unexpected token in JSON" ∧
    ∃ s, invoke sampleHost (failsThenAnswers 0 (.str "not json")) 9
        [.obj [("url", .str "u"), ("forceJSON", .bool true)]] = some s ∧
      s.settled = some (.reject (.str
        ("Unable to parse " ++ toStr sampleHost (failsThenAnswers 0 (.str "not json") 0).body
          ++ " into a JSON object: " ++ "SyntaxError: Unexpected token in JSON"))) ∧
      transportCalls s.trace = 0 + 1 ∧ s.attempt = 0 ∧
      (timersOf s.trace).length = 0 ∧ s.pending = .idle :=
  ⟨rfl, rfl, by decide, fun _ hi => absurd hi (Nat.not_lt_zero _), rfl, rfl,
    C8_parse_failure_rejects sampleHost (failsThenAnswers 0 (.str "not json"))
      (.obj [("url", .str "u"), ("forceJSON", .bool true)]) 0 9
      "SyntaxError: Unexpected token in JSON" rfl rfl
      (by decide) (fun _ hi => absurd hi (Nat.not_lt_zero _)) rfl rfl (by decide)⟩

/-- C9: when every transmission up to the retry limit in force fails, the
promise is rejected with the error of the last call of the transport (call
number limit + 1, after which no call is made), not with an earlier one.
There is a limit unless `retries` is `Infinity`; then no rejection is
delivered at all. -/
theorem C9_rejects_with_last_error (host : Host) (transport : Transport) (d : JSVal)
    (fuel : Nat) (hd : isNullish d = false)
    (hfin : unbounded host (jsOr (getProp d "retries") (.num 3)) = false)
    (hfail : ∀ i, i ≤ retryLimit host (jsOr (getProp d "retries") (.num 3)) →
      truthy (transport i).err = true)
    (hf : 2 * (retryLimit host (jsOr (getProp d "retries") (.num 3)) + 1) ≤ fuel) :
    ∃ s, invoke host transport fuel [d] = some s ∧
      transportCalls s.trace = retryLimit host (jsOr (getProp d "retries") (.num 3)) + 1 ∧
      s.settled = some (.reject
        (transport (retryLimit host (jsOr (getProp d "retries") (.num 3)))).err) := by
  obtain ⟨_, _, e3, e4⟩ := run_exhausted host transport d fuel hfin hfail hf
  have hinv := run_inv host transport fuel _ (initial_inv host d)
  refine ⟨_, invoke_one host transport fuel d hd, ?_, e4⟩
  rw [transportCalls_eq_calls host _ hinv, e3]
  rfl

/-- Witness for C9: with `retries: 2` and errors that differ from call to
call, the rejection carries the error of the third call. -/
theorem C9_rejects_with_last_error_witness :
    isNullish (.obj [("url", .str "u"), ("retries", .num 2)]) = false ∧
    unbounded sampleHost
      (jsOr (getProp (.obj [("url", .str "u"), ("retries", .num 2)]) "retries") (.num 3))
      = false ∧
    (∀ i, i ≤ retryLimit sampleHost
        (jsOr (getProp (.obj [("url", .str "u"), ("retries", .num 2)]) "retries") (.num 3)) →
      truthy (alwaysFails i).err = true) ∧
    ∃ s, invoke sampleHost alwaysFails 6 [.obj [("url", .str "u"), ("retries", .num 2)]]
        = some s ∧
      transportCalls s.trace = retryLimit sampleHost
        (jsOr (getProp (.obj [("url", .str "u"), ("retries", .num 2)]) "retries") (.num 3))
        + 1 ∧
      s.settled = some (.reject (alwaysFails (retryLimit sampleHost
        (jsOr (getProp (.obj [("url", .str "u"), ("retries", .num 2)]) "retries")
          (.num 3)))).err) :=
  ⟨rfl, rfl, fun _ _ => rfl,
    C9_rejects_with_last_error sampleHost alwaysFails
      (.obj [("url", .str "u"), ("retries", .num 2)]) 6 rfl rfl (fun _ _ => rfl)
      (by decide)⟩

/-- C10 does not hold as stated: the code reads the delay from the key
`retryDelay`; with `retryDelayMs: 5000` in the descriptor the retry is
scheduled with the default delay of 2000 ms, which is smaller. -/
theorem C10_counterexample_retryDelayMs :
    ∃ s, invoke sampleHost alwaysFails 2
        [.obj [("url", .str "u"), ("retries", .num 1), ("retryDelayMs", .num 5000)]] = some s ∧
      timersOf s.trace = [.num 2000] ∧ (2000 : Int) < 5000 :=
  ⟨_, rfl, rfl, by decide⟩

/-- C10 (amended): with `retryDelay: D` in the descriptor, `D ≥ 0`, every
retry is scheduled by `setTimeout` with the delay `D` when `D ≥ 1` and with
the default 2000 when `D = 0`, so never with a delay smaller than `D`; and at
every moment the transport has been called at most once more than timers have
been set, so that each call after the first waits for its own timer and is
never issued from the failure handler. -/
theorem C10_retry_delay (host : Host) (transport : Transport) (fuel : Nat)
    (fields : Fields) (D : Nat) (s : State)
    (hD : lookupField "retryDelay" fields = some (.num D))
    (h : invoke host transport fuel [.obj fields] = some s) :
    (∀ v, Event.setTimeout v ∈ s.trace → v = .num (if D = 0 then 2000 else D)) ∧
    (D : Int) ≤ (if D = 0 then 2000 else D) ∧
    transportCalls s.trace ≤ (timersOf s.trace).length + 1 := by
  obtain ⟨_, rfl⟩ := invoke_some host transport fuel _ s h
  have hinv := run_inv host transport fuel _ (initial_inv host (.obj fields))
  have hcfg := run_sameConfig host transport fuel (initial host (.obj fields))
  have hdelay : (initial host (.obj fields)).retryDelay
      = .num (if D = 0 then 2000 else D) := by
    by_cases h0 : D = 0
    · subst h0
      simp [initial, getProp, hD, jsOr, truthy]
    · have : ¬ ((D : Int) = 0) := by exact_mod_cast h0
      simp [initial, getProp, hD, jsOr, truthy, h0, this]
  refine ⟨?_, ?_, ?_⟩
  · intro v hv
    have hmem := (mem_timersOf v _).2 hv
    rw [hinv.timers] at hmem
    rw [List.eq_of_mem_replicate hmem, hcfg.2.2.1, hdelay]
  · split <;> omega
  · rw [transportCalls_eq_calls host _ hinv, hinv.timers, List.length_replicate]
    have hp := hinv.phase
    unfold phaseOk at hp
    cases hpe : (run host transport fuel (initial host (.obj fields))).pending <;>
      rw [hpe] at hp <;> simp at hp <;> omega

/-- Witness for C10 (amended): with `retryDelay: 500` and a transport that
always fails, the first retry is scheduled with 500 ms. -/
theorem C10_retry_delay_witness :
    lookupField "retryDelay" [("url", .str "u"), ("retries", .num 1), ("retryDelay", .num 500)]
      = some (.num (500 : Nat)) ∧
    (∃ s, invoke sampleHost alwaysFails 2
        [.obj [("url", .str "u"), ("retries", .num 1), ("retryDelay", .num 500)]] = some s ∧
      timersOf s.trace = [.num 500] ∧
      ((∀ v, Event.setTimeout v ∈ s.trace → v = .num (if 500 = 0 then 2000 else (500 : Nat))) ∧
        ((500 : Nat) : Int) ≤ (if 500 = 0 then 2000 else (500 : Nat)) ∧
        transportCalls s.trace ≤ (timersOf s.trace).length + 1)) :=
  ⟨rfl, _, rfl, rfl,
    C10_retry_delay sampleHost alwaysFails 2
      [("url", .str "u"), ("retries", .num 1), ("retryDelay", .num 500)] 500 _ rfl rfl⟩

/-! ## Defaults, raw bodies and absent bodies -/

theorem getProp_of_ownProp_none (d : JSVal) (k : String) (h : ownProp d k = none) :
    getProp d k = .undefined := by
  rw [getProp_eq_getD, h]
  rfl

/-- The number of calls never exceeds the retry limit in force by more than
one. -/
theorem calls_le_limit (host : Host) (s : State) (h : Inv host s)
    (hfin : unbounded host s.retries = false) :
    s.calls ≤ retryLimit host s.retries + 1 := by
  have hp := h.phase
  have hb : s.attempt ≤ retryLimit host s.retries := by
    rcases h.bound with hb | hb
    · rw [hfin] at hb
      cases hb
    · exact hb
  unfold phaseOk at hp
  cases hpe : s.pending <;> rw [hpe] at hp <;> simp at hp <;> omega

/-- C11: when the descriptor has none of the four control keys that the code
reads (`retries`, `retryDelay`, `returnFullResponse`, `forceJSON`), the retry
limit in force is 3: the transport is never called more than four times, and
exactly four times with three timers when it always fails; every timer is set
with 2000 ms; and a successful transmission resolves with the raw body. -/
theorem C11_defaults (host : Host) (d : JSVal) (hd : isNullish d = false)
    (h1 : ownProp d "retries" = none) (h2 : ownProp d "retryDelay" = none)
    (h3 : ownProp d "returnFullResponse" = none) (h4 : ownProp d "forceJSON" = none) :
    (∀ transport fuel s, invoke host transport fuel [d] = some s →
      transportCalls s.trace ≤ 4 ∧
      ∀ v, Event.setTimeout v ∈ s.trace → v = .num 2000) ∧
    (∀ transport fuel, (∀ i, i ≤ 3 → truthy (transport i).err = true) → 8 ≤ fuel →
      ∃ s, invoke host transport fuel [d] = some s ∧ transportCalls s.trace = 4 ∧
        timersOf s.trace = [.num 2000, .num 2000, .num 2000] ∧
        s.settled = some (.reject (transport 3).err)) ∧
    (∀ transport K fuel, K ≤ 3 → (∀ i, i < K → truthy (transport i).err = true) →
      truthy (transport K).err = false → 2 * (K + 1) ≤ fuel →
      ∃ s, invoke host transport fuel [d] = some s ∧ transportCalls s.trace = K + 1 ∧
        s.settled = some (.resolve (transport K).body)) := by
  have g1 := getProp_of_ownProp_none d _ h1
  have g2 := getProp_of_ownProp_none d _ h2
  have g3 := getProp_of_ownProp_none d _ h3
  have g4 := getProp_of_ownProp_none d _ h4
  have hret : (initial host d).retries = .num 3 := by simp [initial, g1, jsOr, truthy]
  have hdel : (initial host d).retryDelay = .num 2000 := by simp [initial, g2, jsOr, truthy]
  have hfull : truthy (initial host d).returnFullResponse = false := by
    simp [initial, g3, jsOr, truthy]
  have hjson : truthy (initial host d).forceJSON = false := by
    simp [initial, g4, jsOr, truthy]
  have hlim : retryLimit host (initial host d).retries = 3 := by
    rw [hret, retryLimit_num]
    rfl
  have hfin : unbounded host (initial host d).retries = false := by
    rw [hret]
    exact unbounded_num host 3
  refine ⟨?_, ?_, ?_⟩
  · intro transport fuel s hs
    obtain ⟨_, rfl⟩ := invoke_some host transport fuel d s hs
    have hinv := run_inv host transport fuel _ (initial_inv host d)
    have hcfg := run_sameConfig host transport fuel (initial host d)
    refine ⟨?_, ?_⟩
    · have := calls_le_limit host _ hinv (by rw [hcfg.2.1]; exact hfin)
      rw [hcfg.2.1, hlim] at this
      rw [transportCalls_eq_calls host _ hinv]
      exact this
    · intro v hv
      have hmem := (mem_timersOf v _).2 hv
      rw [hinv.timers] at hmem
      rw [List.eq_of_mem_replicate hmem, hcfg.2.2.1, hdel]
  · intro transport fuel hfail hf
    obtain ⟨_, e2, e3, e4⟩ := run_exhausted host transport d fuel hfin
      (by rw [hlim]; exact hfail) (by rw [hlim]; exact hf)
    have hinv := run_inv host transport fuel _ (initial_inv host d)
    have hcfg := run_sameConfig host transport fuel (initial host d)
    refine ⟨_, invoke_one host transport fuel d hd, ?_, ?_, ?_⟩
    · rw [transportCalls_eq_calls host _ hinv, e3, hlim]
    · rw [hinv.timers, e2, hlim, hcfg.2.2.1, hdel]
      rfl
    · rw [e4, hlim]
  · intro transport K fuel hK hfail hok hf
    obtain ⟨_, _, e3, e4, _⟩ := run_success host transport d K fuel
      (Or.inr (by rw [hlim]; exact hK)) hfail hok hf
    have hinv := run_inv host transport fuel _ (initial_inv host d)
    refine ⟨_, invoke_one host transport fuel d hd, ?_, ?_⟩
    · rw [transportCalls_eq_calls host _ hinv, e3]
    · rw [e4]
      unfold shapeOutcome
      rw [hfull, hjson]
      rfl

/-- Witness for C11: the descriptor `{url: "u"}`. -/
theorem C11_defaults_witness :
    isNullish (.obj [("url", .str "u")]) = false ∧
    ownProp (.obj [("url", .str "u")]) "retries" = none ∧
    ownProp (.obj [("url", .str "u")]) "retryDelay" = none ∧
    ownProp (.obj [("url", .str "u")]) "returnFullResponse" = none ∧
    ownProp (.obj [("url", .str "u")]) "forceJSON" = none ∧
    ((∀ transport fuel s, invoke sampleHost transport fuel [.obj [("url", .str "u")]] = some s →
        transportCalls s.trace ≤ 4 ∧
        ∀ v, Event.setTimeout v ∈ s.trace → v = .num 2000) ∧
      (∀ transport fuel, (∀ i, i ≤ 3 → truthy (transport i).err = true) → 8 ≤ fuel →
        ∃ s, invoke sampleHost transport fuel [.obj [("url", .str "u")]] = some s ∧
          transportCalls s.trace = 4 ∧
          timersOf s.trace = [.num 2000, .num 2000, .num 2000] ∧
          s.settled = some (.reject (transport 3).err)) ∧
      (∀ transport K fuel, K ≤ 3 → (∀ i, i < K → truthy (transport i).err = true) →
        truthy (transport K).err = false → 2 * (K + 1) ≤ fuel →
        ∃ s, invoke sampleHost transport fuel [.obj [("url", .str "u")]] = some s ∧
          transportCalls s.trace = K + 1 ∧
          s.settled = some (.resolve (transport K).body))) :=
  ⟨rfl, rfl, rfl, rfl, rfl,
    C11_defaults sampleHost (.obj [("url", .str "u")]) rfl rfl rfl rfl rfl⟩

/-- C12: with neither `returnFullResponse` nor `forceJSON` set, a successful
transmission resolves the promise with exactly the body the transport
delivered, whatever that body is (the value `undefined` included), and
`JSON.parse` is not called. -/
theorem C12_raw_body (host : Host) (transport : Transport) (d : JSVal) (K fuel : Nat)
    (hd : isNullish d = false)
    (hfull : truthy (getProp d "returnFullResponse") = false)
    (hjson : truthy (getProp d "forceJSON") = false)
    (hK : unbounded host (jsOr (getProp d "retries") (.num 3)) = true ∨
      K ≤ retryLimit host (jsOr (getProp d "retries") (.num 3)))
    (hfail : ∀ i, i < K → truthy (transport i).err = true)
    (hok : truthy (transport K).err = false)
    (hf : 2 * (K + 1) ≤ fuel) :
    ∃ s, invoke host transport fuel [d] = some s ∧
      s.settled = some (.resolve (transport K).body) ∧
      ∀ t, Event.parse t ∉ s.trace := by
  obtain ⟨_, _, _, e4, e5⟩ := run_success host transport d K fuel hK hfail hok hf
  refine ⟨_, invoke_one host transport fuel d hd, ?_, ?_⟩
  · rw [e4]
    unfold shapeOutcome
    rw [initial_returnFullResponse, initial_forceJSON, hfull, hjson]
    rfl
  · intro t hmem
    have := (mem_parsesOf t _).2 hmem
    rw [e5, initial_returnFullResponse, initial_forceJSON, hfull, hjson] at this
    simp at this

/-- Witness for C12: the transport succeeds without a body, and the promise
is resolved with `undefined`. -/
theorem C12_raw_body_witness :
    isNullish (.obj [("url", .str "u")]) = false ∧
    truthy (getProp (.obj [("url", .str "u")]) "returnFullResponse") = false ∧
    truthy (getProp (.obj [("url", .str "u")]) "forceJSON") = false ∧
    0 ≤ retryLimit sampleHost (jsOr (getProp (.obj [("url", .str "u")]) "retries") (.num 3)) ∧
    (∀ i, i < 0 → truthy (failsThenAnswers 0 .undefined i).err = true) ∧
    truthy (failsThenAnswers 0 .undefined 0).err = false ∧
    (failsThenAnswers 0 .undefined 0).body = .undefined ∧
    ∃ s, invoke sampleHost (failsThenAnswers 0 .undefined) 2 [.obj [("url", .str "u")]]
        = some s ∧
      s.settled = some (.resolve (failsThenAnswers 0 .undefined 0).body) ∧
      ∀ t, Event.parse t ∉ s.trace :=
  ⟨rfl, rfl, rfl, by decide, fun _ hi => absurd hi (Nat.not_lt_zero _), rfl, rfl,
    C12_raw_body sampleHost (failsThenAnswers 0 .undefined) (.obj [("url", .str "u")]) 0 2
      rfl rfl rfl (by decide) (fun _ hi => absurd hi (Nat.not_lt_zero _)) rfl (by decide)⟩

/-- C13: with `returnFullResponse` not set and `forceJSON` set, a successful
transmission without a body (`undefined`) rejects the promise with the parse
failure: `JSON.parse` is given the text `undefined`, which it does not
accept, and the promise is not resolved. -/
theorem C13_absent_body_rejects (host : Host) (transport : Transport) (d : JSVal)
    (K fuel : Nat) (e : String)
    (hfull : truthy (getProp d "returnFullResponse") = false)
    (hjson : truthy (getProp d "forceJSON") = true)
    (hK : unbounded host (jsOr (getProp d "retries") (.num 3)) = true ∨
      K ≤ retryLimit host (jsOr (getProp d "retries") (.num 3)))
    (hfail : ∀ i, i < K → truthy (transport i).err = true)
    (hok : truthy (transport K).err = false)
    (hbody : (transport K).body = .undefined)
    (hparse : host.jsonParse "undefined" = .error e)
    (hf : 2 * (K + 1) ≤ fuel) :
    ∃ s, invoke host transport fuel [d] = some s ∧
      s.settled = some (.reject (.str
        ("Unable to parse undefined into a JSON object: " ++ e))) ∧
      (∀ v, s.settled ≠ some (.resolve v)) ∧
      parsesOf s.trace = ["undefined"] := by
  have hd := not_nullish_of_truthy_getProp d _ hjson
  have htext : toStr host (transport K).body = "undefined" := by rw [hbody]; rfl
  obtain ⟨_, _, _, e4, e5⟩ := run_success host transport d K fuel hK hfail hok hf
  have hset : (run host transport fuel (initial host d)).settled
      = some (.reject (.str ("Unable to parse undefined into a JSON object: " ++ e))) := by
    rw [e4]
    unfold shapeOutcome
    rw [initial_returnFullResponse, initial_forceJSON, hfull, hjson, htext, hparse]
    rfl
  refine ⟨_, invoke_one host transport fuel d hd, hset, ?_, ?_⟩
  · intro v hv
    rw [hset] at hv
    exact Outcome.noConfusion (Option.some.inj hv)
  · rw [e5, initial_returnFullResponse, initial_forceJSON, hfull, hjson, htext]
    rfl

/-- Witness for C13: `forceJSON: true` and a transport that succeeds without a
body. -/
theorem C13_absent_body_rejects_witness :
    truthy (getProp (.obj [("url", .str "u"), ("forceJSON", .bool true)])
      "returnFullResponse") = false ∧
    truthy (getProp (.obj [("url", .str "u"), ("forceJSON", .bool true)]) "forceJSON")
      = true ∧
    0 ≤ retryLimit sampleHost
      (jsOr (getProp (.obj [("url", .str "u"), ("forceJSON", .bool true)]) "retries")
        (.num 3)) ∧
    (∀ i, i < 0 → truthy (failsThenAnswers 0 .undefined i).err = true) ∧
    truthy (failsThenAnswers 0 .undefined 0).err = false ∧
    (failsThenAnswers 0 .undefined 0).body = .undefined ∧
    sampleHost.jsonParse "undefined" = .error "SyntaxError: Unexpected token in JSON" ∧
    ∃ s, invoke sampleHost (failsThenAnswers 0 .undefined) 2
        [.obj [("url", .str "u"), ("forceJSON", .bool true)]] = some s ∧
      s.settled = some (.reject (.str
        ("Unable to parse undefined into a JSON object: "
          ++ "SyntaxError: Unexpected token in JSON"))) ∧
      (∀ v, s.settled ≠ some (.resolve v)) ∧
      parsesOf s.trace = ["undefined"] :=
  ⟨rfl, rfl, by decide, fun _ hi => absurd hi (Nat.not_lt_zero _), rfl, rfl, rfl,
    C13_absent_body_rejects sampleHost (failsThenAnswers 0 .undefined)
      (.obj [("url", .str "u"), ("forceJSON", .bool true)]) 0 2
      "SyntaxError: Unexpected token in JSON" rfl rfl (by decide)
      (fun _ hi => absurd hi (Nat.not_lt_zero _)) rfl rfl rfl (by decide)⟩

/-! ## The caller's object -/

theorem isNullish_deleteProp (o : JSVal) (k : String) :
    isNullish (deleteProp o k) = isNullish o := by
  cases o <;> rfl

theorem isNullish_sanitize (d : JSVal) : isNullish (sanitize d) = isNullish d := by
  simp [sanitize, isNullish_deleteProp]

theorem ownProp_sanitize_control (d : JSVal) :
    ownProp (sanitize d) "retries" = none ∧ ownProp (sanitize d) "retryDelay" = none ∧
    ownProp (sanitize d) "returnFullResponse" = none ∧
    ownProp (sanitize d) "forceJSON" = none := by
  unfold sanitize
  refine ⟨?_, ?_, ?_, ?_⟩
  · rw [ownProp_deleteProp_ne _ _ _ (by decide), ownProp_deleteProp_ne _ _ _ (by decide),
      ownProp_deleteProp_ne _ _ _ (by decide), ownProp_deleteProp_self]
  · rw [ownProp_deleteProp_ne _ _ _ (by decide), ownProp_deleteProp_ne _ _ _ (by decide),
      ownProp_deleteProp_self]
  · rw [ownProp_deleteProp_ne _ _ _ (by decide), ownProp_deleteProp_self]
  · rw [ownProp_deleteProp_self]

theorem ownProp_sanitize_other (d : JSVal) (k : String)
    (h1 : k ≠ "retries") (h2 : k ≠ "retryDelay") (h3 : k ≠ "returnFullResponse")
    (h4 : k ≠ "forceJSON") : ownProp (sanitize d) k = ownProp d k := by
  unfold sanitize
  rw [ownProp_deleteProp_ne _ _ _ h4, ownProp_deleteProp_ne _ _ _ h3,
    ownProp_deleteProp_ne _ _ _ h2, ownProp_deleteProp_ne _ _ _ h1]

theorem descriptorAfter_eq (host : Host) (d : JSVal) (hd : isNullish d = false) :
    descriptorAfter host d = sanitize d := by
  simp [descriptorAfter, MakeRequest_one host d hd, initial]

/-- The settings captured for a descriptor without control keys are the
defaults. -/
theorem initial_defaults (host : Host) (d : JSVal)
    (h1 : ownProp d "retries" = none) (h2 : ownProp d "retryDelay" = none)
    (h3 : ownProp d "returnFullResponse" = none) (h4 : ownProp d "forceJSON" = none) :
    (initial host d).retries = .num 3 ∧ (initial host d).retryDelay = .num 2000 ∧
    (initial host d).returnFullResponse = .bool false ∧
    (initial host d).forceJSON = .bool false := by
  have g1 := getProp_of_ownProp_none d _ h1
  have g2 := getProp_of_ownProp_none d _ h2
  have g3 := getProp_of_ownProp_none d _ h3
  have g4 := getProp_of_ownProp_none d _ h4
  simp [initial, g1, g2, g3, g4, jsOr, truthy]

/-- C14 does not hold as stated: the call deletes the control keys from the
caller's own object.  With `{url, retries: 1, retryDelay: 500, forceJSON:
true}` the first invocation captures the limit 1, the delay 500 and
`forceJSON`, and makes two calls of a transport that always fails; the second
invocation with the same object finds no control key, captures 3, 2000 and no
`forceJSON`, and makes four calls. -/
theorem C14_counterexample_keys_deleted :
    hasKey (.obj [("url", .str "u"), ("retries", .num 1), ("retryDelay", .num 500),
      ("forceJSON", .bool true)]) "retries" = true ∧
    hasKey (descriptorAfter sampleHost (.obj [("url", .str "u"), ("retries", .num 1),
      ("retryDelay", .num 500), ("forceJSON", .bool true)])) "retries" = false ∧
    ∃ s1 s2,
      invoke sampleHost alwaysFails 8 [.obj [("url", .str "u"), ("retries", .num 1),
        ("retryDelay", .num 500), ("forceJSON", .bool true)]] = some s1 ∧
      invoke sampleHost alwaysFails 8 [descriptorAfter sampleHost
        (.obj [("url", .str "u"), ("retries", .num 1), ("retryDelay", .num 500),
          ("forceJSON", .bool true)])] = some s2 ∧
      s1.retries = .num 1 ∧ s2.retries = .num 3 ∧
      s1.retryDelay = .num 500 ∧ s2.retryDelay = .num 2000 ∧
      s1.forceJSON = .bool true ∧ s2.forceJSON = .bool false ∧
      transportCalls s1.trace = 2 ∧ transportCalls s2.trace = 4 :=
  ⟨rfl, rfl, _, _, rfl, rfl, rfl, rfl, rfl, rfl, rfl, rfl, rfl, rfl⟩

/-- C14 (amended): a call deletes the keys `retries`, `retryDelay`,
`returnFullResponse` and `forceJSON` from the caller's object and leaves every
other key as it was; a second invocation with the same object starts its own
attempt counter at 0 and applies the defaults (limit 3, delay 2000, raw
body), which are the settings of the first invocation when the descriptor
supplied none of the four keys. -/
theorem C14_second_call_applies_defaults (host : Host) (d : JSVal)
    (hd : isNullish d = false) :
    (ownProp (descriptorAfter host d) "retries" = none ∧
      ownProp (descriptorAfter host d) "retryDelay" = none ∧
      ownProp (descriptorAfter host d) "returnFullResponse" = none ∧
      ownProp (descriptorAfter host d) "forceJSON" = none) ∧
    (∀ k, k ≠ "retries" → k ≠ "retryDelay" → k ≠ "returnFullResponse" → k ≠ "forceJSON" →
      ownProp (descriptorAfter host d) k = ownProp d k) ∧
    ∃ s1 s2, MakeRequest host [d] = .returned s1 ∧
      MakeRequest host [descriptorAfter host d] = .returned s2 ∧
      s2.retries = .num 3 ∧ s2.retryDelay = .num 2000 ∧
      s2.returnFullResponse = .bool false ∧ s2.forceJSON = .bool false ∧
      s2.attempt = 0 ∧ s2.calls = 0 ∧
      (ownProp d "retries" = none → ownProp d "retryDelay" = none →
        ownProp d "returnFullResponse" = none → ownProp d "forceJSON" = none →
        s2.retries = s1.retries ∧ s2.retryDelay = s1.retryDelay ∧
        s2.returnFullResponse = s1.returnFullResponse ∧ s2.forceJSON = s1.forceJSON) := by
  rw [descriptorAfter_eq host d hd]
  obtain ⟨c1, c2, c3, c4⟩ := ownProp_sanitize_control d
  obtain ⟨d1, d2, d3, d4⟩ := initial_defaults host (sanitize d) c1 c2 c3 c4
  refine ⟨⟨c1, c2, c3, c4⟩, fun k => ownProp_sanitize_other d k, initial host d,
    initial host (sanitize d), MakeRequest_one host d hd,
    MakeRequest_one host (sanitize d) (by rw [isNullish_sanitize, hd]),
    d1, d2, d3, d4, rfl, rfl, ?_⟩
  intro h1 h2 h3 h4
  obtain ⟨e1, e2, e3, e4⟩ := initial_defaults host d h1 h2 h3 h4
  exact ⟨by rw [d1, e1], by rw [d2, e2], by rw [d3, e3], by rw [d4, e4]⟩

/-- Witness for C14 (amended): the descriptor `{url: "u", retries: 1}`. -/
theorem C14_second_call_applies_defaults_witness :
    isNullish (.obj [("url", .str "u"), ("retries", .num 1)]) = false ∧
    ((ownProp (descriptorAfter sampleHost (.obj [("url", .str "u"), ("retries", .num 1)]))
          "retries" = none ∧
        ownProp (descriptorAfter sampleHost (.obj [("url", .str "u"), ("retries", .num 1)]))
          "retryDelay" = none ∧
        ownProp (descriptorAfter sampleHost (.obj [("url", .str "u"), ("retries", .num 1)]))
          "returnFullResponse" = none ∧
        ownProp (descriptorAfter sampleHost (.obj [("url", .str "u"), ("retries", .num 1)]))
          "forceJSON" = none) ∧
      (∀ k, k ≠ "retries" → k ≠ "retryDelay" → k ≠ "returnFullResponse" →
        k ≠ "forceJSON" →
        ownProp (descriptorAfter sampleHost (.obj [("url", .str "u"), ("retries", .num 1)])) k
          = ownProp (.obj [("url", .str "u"), ("retries", .num 1)]) k) ∧
      ∃ s1 s2, MakeRequest sampleHost [.obj [("url", .str "u"), ("retries", .num 1)]]
          = .returned s1 ∧
        MakeRequest sampleHost
          [descriptorAfter sampleHost (.obj [("url", .str "u"), ("retries", .num 1)])]
          = .returned s2 ∧
        s2.retries = .num 3 ∧ s2.retryDelay = .num 2000 ∧
        s2.returnFullResponse = .bool false ∧ s2.forceJSON = .bool false ∧
        s2.attempt = 0 ∧ s2.calls = 0 ∧
        (ownProp (.obj [("url", .str "u"), ("retries", .num 1)]) "retries" = none →
          ownProp (.obj [("url", .str "u"), ("retries", .num 1)]) "retryDelay" = none →
          ownProp (.obj [("url", .str "u"), ("retries", .num 1)]) "returnFullResponse"
            = none →
          ownProp (.obj [("url", .str "u"), ("retries", .num 1)]) "forceJSON" = none →
          s2.retries = s1.retries ∧ s2.retryDelay = s1.retryDelay ∧
          s2.returnFullResponse = s1.returnFullResponse ∧ s2.forceJSON = s1.forceJSON)) :=
  ⟨rfl, C14_second_call_applies_defaults sampleHost
    (.obj [("url", .str "u"), ("retries", .num 1)]) rfl⟩

/-! ## Diagnostics -/

theorem effects_append (a b : List Event) : effects (a ++ b) = effects a ++ effects b := by
  induction a with
  | nil => rfl
  | cons e rest ih => cases e <;> simp [effects, ih]

theorem effects_Log (host : Host) (m : JSVal) : effects (Log host m) = [] := by
  unfold Log; split <;> rfl

theorem requestsOf_effects (t : List Event) : requestsOf (effects t) = requestsOf t := by
  induction t with
  | nil => rfl
  | cons e rest ih => cases e <;> simp [effects, requestsOf, ih]

theorem effects_preamble (host : Host) (d : JSVal) : effects (preamble host d) = [] := by
  unfold preamble
  split <;> split <;> simp [effects_append, effects_Log, effects]

theorem observe_quiet (s : State) : observe (quiet s) = observe s := by
  simp [observe, quiet, transportCalls, requestsOf_effects]

theorem toStr_congr (h1 h2 : Host) (ho : h1.objToString = h2.objToString) (v : JSVal) :
    toStr h1 v = toStr h2 v := by
  cases v with
  | bool b => cases b <;> rfl
  | inf b => cases b <;> rfl
  | obj fs => simp [toStr, ho]
  | _ => rfl

theorem jsLess_congr (h1 h2 : Host) (hn : h1.toNumber = h2.toNumber) (a : Nat) (v : JSVal) :
    jsLess h1 a v = jsLess h2 a v := by
  have : toNumeric h1 v = toNumeric h2 v := by
    cases v with
    | bool b => cases b <;> rfl
    | inf b => cases b <;> rfl
    | str s => simp [toNumeric, hn]
    | obj fs => simp [toNumeric, hn]
    | _ => rfl
  simp [jsLess, this]

theorem callback_quiet (h1 h2 : Host) (hj : h1.jsonParse = h2.jsonParse)
    (ho : h1.objToString = h2.objToString) (hn : h1.toNumber = h2.toNumber)
    (s t : State) (r : Response) (hst : quiet s = quiet t) :
    quiet (callback h1 s r) = quiet (callback h2 t r) := by
  obtain ⟨nr, re, rd, rf, fj, att, ca, pe, se, tr⟩ := s
  obtain ⟨nr', re', rd', rf', fj', att', ca', pe', se', tr'⟩ := t
  simp only [quiet, State.mk.injEq] at hst
  obtain ⟨rfl, rfl, rfl, rfl, rfl, rfl, rfl, rfl, rfl, htr⟩ := hst
  unfold callback
  simp only [toStr_congr h1 h2 ho, jsLess_congr h1 h2 hn, hj]
  by_cases c1 : truthy r.err = true
  · by_cases c2 : jsLess h2 att re = true
    · simp [c1, c2, quiet, effects_append, effects_Log, effects, htr]
    · simp [c1, c2, quiet, settle, effects_append, effects, htr]
  · by_cases c3 : truthy rf = true
    · simp [c1, c3, quiet, settle, effects_append, effects_Log, effects, htr]
    · by_cases c4 : truthy fj = true
      · cases hp : h2.jsonParse (toStr h2 r.body) <;>
          simp [c1, c3, c4, quiet, settle, effects_append, effects_Log, effects, htr]
      · simp [c1, c3, c4, quiet, settle, effects_append, effects_Log, effects, htr]

theorem step_quiet (h1 h2 : Host) (hj : h1.jsonParse = h2.jsonParse)
    (ho : h1.objToString = h2.objToString) (hn : h1.toNumber = h2.toNumber)
    (transport : Transport) (s t : State) (hst : quiet s = quiet t) :
    (step h1 transport s).map quiet = (step h2 transport t).map quiet := by
  have hcb := callback_quiet h1 h2 hj ho hn s t
  obtain ⟨nr, re, rd, rf, fj, att, ca, pe, se, tr⟩ := s
  obtain ⟨nr', re', rd', rf', fj', att', ca', pe', se', tr'⟩ := t
  have hst' := hst
  simp only [quiet, State.mk.injEq] at hst'
  obtain ⟨rfl, rfl, rfl, rfl, rfl, rfl, rfl, rfl, rfl, htr⟩ := hst'
  cases pe with
  | nextTick => simp [step, attemptRequest, quiet, effects_append, effects, htr]
  | timer d => simp [step, attemptRequest, quiet, effects_append, effects, htr]
  | inFlight => simpa [step] using hcb _ hst
  | idle => simp [step]

theorem run_quiet (h1 h2 : Host) (hj : h1.jsonParse = h2.jsonParse)
    (ho : h1.objToString = h2.objToString) (hn : h1.toNumber = h2.toNumber)
    (transport : Transport) (n : Nat) :
    ∀ s t : State, quiet s = quiet t →
      quiet (run h1 transport n s) = quiet (run h2 transport n t) := by
  induction n with
  | zero =>
    intro s t hst
    simpa [run] using hst
  | succ n ih =>
    intro s t hst
    have hstep := step_quiet h1 h2 hj ho hn transport s t hst
    simp only [run]
    cases hs : step h1 transport s with
    | none =>
      cases ht : step h2 transport t with
      | none => simpa using hst
      | some t' => simp [hs, ht] at hstep
    | some s' =>
      cases ht : step h2 transport t with
      | none => simp [hs, ht] at hstep
      | some t' =>
        simp only [hs, ht, Option.map_some', Option.some.injEq] at hstep
        exact ih s' t' hstep

theorem initial_quiet (h1 h2 : Host) (d : JSVal) :
    quiet (initial h1 d) = quiet (initial h2 d) := by
  simp [quiet, initial, effects_append, effects_preamble, effects]

theorem invoke_nullish (host : Host) (transport : Transport) (fuel : Nat) (d : JSVal)
    (hd : isNullish d = true) : invoke host transport fuel [d] = none := by
  simp [invoke, MakeRequest, hd]

theorem invoke_quiet (h1 h2 : Host) (hj : h1.jsonParse = h2.jsonParse)
    (ho : h1.objToString = h2.objToString) (hn : h1.toNumber = h2.toNumber)
    (transport : Transport) (fuel : Nat) (d : JSVal) :
    (invoke h1 transport fuel [d]).map quiet = (invoke h2 transport fuel [d]).map quiet := by
  cases hd : isNullish d with
  | true => simp [invoke_nullish _ transport fuel d hd]
  | false =>
    simp only [invoke_one _ transport fuel d hd, Option.map_some', Option.some.injEq]
    exact run_quiet h1 h2 hj ho hn transport fuel _ _ (initial_quiet h1 h2 d)

/-- C15: the debug flags do not influence the outcome.  For every descriptor,
every transport and every length of run, the invocation under one setting of
`Debug.IsDebug` and `Debug.OfflineTests` and the invocation under any other
setting make the same number of calls of the transport, hand it the same
descriptors, and leave the promise settled in the same way (or both throw);
indeed the two states differ in nothing but the diagnostics of the trace. -/
theorem C15_debug_flags_unobservable (host : Host) (transport : Transport) (fuel : Nat)
    (d : JSVal) (b o b' o' : Bool) :
    (invoke (withFlags host b o) transport fuel [d]).map observe
      = (invoke (withFlags host b' o') transport fuel [d]).map observe ∧
    (invoke (withFlags host b o) transport fuel [d]).map quiet
      = (invoke (withFlags host b' o') transport fuel [d]).map quiet := by
  have hq := invoke_quiet (withFlags host b o) (withFlags host b' o') rfl rfl rfl
    transport fuel d
  refine ⟨?_, hq⟩
  have := congrArg (Option.map observe) hq
  simpa [Option.map_map, Function.comp_def, observe_quiet] using this

/-- With both debug flags set the trace does carry diagnostics: the offline
preamble and the `Log` line come before the first attempt is scheduled. -/
theorem debug_preamble_traced :
    ∃ s, invoke (withFlags sampleHost true true) alwaysFails 0 [.obj [("url", .str "u")]]
        = some s ∧
      s.trace = [.offlineSetup, .disableNetConnect, .log (.str "Making request to u"),
        .nextTick] ∧
      effects s.trace = [.nextTick] :=
  ⟨_, rfl, rfl, rfl⟩

/-! ## Settling and termination -/

theorem settlesOf_append (a b : List Event) :
    settlesOf (a ++ b) = settlesOf a ++ settlesOf b := by
  induction a with
  | nil => rfl
  | cons e rest ih => cases e <;> simp [settlesOf, ih]

theorem settlesOf_Log (host : Host) (m : JSVal) : settlesOf (Log host m) = [] := by
  unfold Log; split <;> rfl

theorem initial_settlesOf (host : Host) (d : JSVal) :
    settlesOf (initial host d).trace = (initial host d).settled.toList := by
  simp only [initial, preamble]
  split <;> split <;> simp [settlesOf_append, settlesOf_Log, settlesOf]

theorem callback_settlesOf (host : Host) (s : State) (r : Response)
    (hs : s.settled = none) (h : settlesOf s.trace = s.settled.toList) :
    settlesOf (callback host s r).trace = (callback host s r).settled.toList := by
  rw [hs] at h
  unfold callback
  by_cases c1 : truthy r.err = true
  · by_cases c2 : jsLess host s.attempt s.retries = true
    · simp [c1, c2, settlesOf_append, settlesOf_Log, settlesOf, h, hs]
    · simp [c1, c2, settle, settlesOf_append, settlesOf, h, hs]
  · by_cases c3 : truthy s.returnFullResponse = true
    · simp [c1, c3, settle, settlesOf_append, settlesOf_Log, settlesOf, h, hs]
    · by_cases c4 : truthy s.forceJSON = true
      · cases hp : host.jsonParse (toStr host r.body) <;>
          simp [c1, c3, c4, settle, settlesOf_append, settlesOf_Log, settlesOf, h, hs]
      · simp [c1, c3, c4, settle, settlesOf_append, settlesOf_Log, settlesOf, h, hs]

theorem step_settlesOf (host : Host) (transport : Transport) (s s' : State)
    (hinv : Inv host s) (h : settlesOf s.trace = s.settled.toList)
    (hs : step host transport s = some s') :
    settlesOf s'.trace = s'.settled.toList := by
  unfold step at hs
  cases hp : s.pending <;> simp [hp] at hs <;> subst hs
  · simp [attemptRequest, settlesOf_append, settlesOf, h]
  · simp [attemptRequest, settlesOf_append, settlesOf, h]
  · exact callback_settlesOf host s _ (hinv.unsettled (by simp [hp])).1 h

theorem run_settlesOf (host : Host) (transport : Transport) (n : Nat) :
    ∀ s : State, Inv host s → settlesOf s.trace = s.settled.toList →
      settlesOf (run host transport n s).trace = (run host transport n s).settled.toList := by
  induction n with
  | zero =>
    intro s _ h
    simpa [run] using h
  | succ n ih =>
    intro s hinv h
    simp only [run]
    cases hs : step host transport s with
    | none => simpa using h
    | some s' =>
      exact ih s' (step_inv host transport s s' hs hinv)
        (step_settlesOf host transport s s' hinv h hs)

theorem round_inv (host : Host) (transport : Transport) (s : State)
    (hq : queued s.pending = true) (h : Inv host s) : Inv host (round host transport s) :=
  callback_inv host (attemptRequest s) _ (by simp [attemptRequest])
    (attemptRequest_inv host s hq h)

theorem round_retries (host : Host) (transport : Transport) (s : State) :
    (round host transport s).retries = s.retries := by
  have := (callback_sameConfig host (attemptRequest s) (transport s.calls)).2.1
  simpa [round, attemptRequest] using this

/-- From a state with an attempt queued and a limit on the retries, the event
loop comes to rest within two turns for every attempt the limit still
allows. -/
theorem run_terminates (host : Host) (transport : Transport) (n : Nat) :
    ∀ s : State, queued s.pending = true → Inv host s →
      unbounded host s.retries = false →
      retryLimit host s.retries - s.attempt ≤ n →
      (run host transport (2 * (n + 1)) s).pending = .idle := by
  induction n with
  | zero =>
    intro s hq hinv hfin hle
    have hne : s.pending ≠ .idle := by
      intro h0; simp [h0, queued] at hq
    have hs := (hinv.unsettled hne).1
    rw [show 2 * (0 + 1) = 0 + 2 by rfl, run_round host transport 0 s hq]
    simp only [run]
    cases herr : truthy (transport s.calls).err with
    | true =>
      exact (round_exhausted host transport s herr
        (jsLess_of_ge host _ _ hfin (by omega)) hs).1
    | false => exact (round_success host transport s herr hs).1
  | succ n ih =>
    intro s hq hinv hfin hle
    have hne : s.pending ≠ .idle := by
      intro h0; simp [h0, queued] at hq
    have hs := (hinv.unsettled hne).1
    rw [show 2 * (n + 1 + 1) = 2 * (n + 1) + 2 by ring,
      run_round host transport (2 * (n + 1)) s hq]
    cases herr : truthy (transport s.calls).err with
    | false =>
      have hidle := (round_success host transport s herr hs).1
      rw [run_idle host transport _ _ hidle]
      exact hidle
    | true =>
      by_cases hlt : s.attempt < retryLimit host s.retries
      · obtain ⟨r1, r2, _, _⟩ := round_retry host transport s herr
          (jsLess_of_lt host _ _ hlt)
        exact ih (round host transport s) (by simp [r1, queued])
          (round_inv host transport s hq hinv)
          (by rw [round_retries]; exact hfin)
          (by rw [round_retries, r2]; omega)
      · have hidle := (round_exhausted host transport s herr
          (jsLess_of_ge host _ _ hfin (by omega)) hs).1
        rw [run_idle host transport _ _ hidle]
        exact hidle

theorem run_rest (host : Host) (transport : Transport) (n fuel : Nat) (s : State)
    (hidle : (run host transport n s).pending = .idle) (hf : n ≤ fuel) :
    run host transport fuel s = run host transport n s := by
  obtain ⟨m, rfl⟩ : ∃ m, fuel = n + m := ⟨fuel - n, by omega⟩
  rw [run_add, run_idle host transport m _ hidle]

/-- With `Infinity` for a limit and a transport that fails on every call, the
invocation never comes to rest: after any number of turns the promise is
unsettled, something is queued or in flight, and the transport has been called
once for every two turns. -/
theorem run_unbounded (host : Host) (transport : Transport) (d : JSVal) (fuel : Nat)
    (hinf : unbounded host (initial host d).retries = true)
    (hfail : ∀ i, truthy (transport i).err = true) :
    (run host transport fuel (initial host d)).settled = none ∧
    (run host transport fuel (initial host d)).pending ≠ .idle ∧
    fuel ≤ 2 * (run host transport fuel (initial host d)).calls := by
  have hq : queued (initial host d).pending = true := by simp [initial, queued]
  have hs : (initial host d).settled = none := by simp [initial]
  have hc : (initial host d).calls = 0 := by simp [initial]
  have hretried : ∀ k, queued (run host transport (2 * k) (initial host d)).pending = true ∧
      (run host transport (2 * k) (initial host d)).calls = k ∧
      (run host transport (2 * k) (initial host d)).settled = none := by
    intro k
    obtain ⟨q1, _, q3, q4⟩ := run_retried host transport k (initial host d) hq hs
      (fun i _ => hfail _) (fun i _ => jsLess_of_unbounded host _ _ hinf)
    exact ⟨q1, by rw [q3, hc, Nat.zero_add], q4⟩
  obtain ⟨k, hk | hk⟩ : ∃ k, fuel = 2 * k ∨ fuel = 2 * k + 1 :=
    ⟨fuel / 2, by omega⟩
  · subst hk
    obtain ⟨q1, q3, q4⟩ := hretried k
    refine ⟨q4, ?_, by omega⟩
    intro h0
    rw [h0] at q1
    simp [queued] at q1
  · subst hk
    obtain ⟨q1, q3, q4⟩ := hretried k
    have hrun : run host transport (2 * k + 1) (initial host d)
        = attemptRequest (run host transport (2 * k) (initial host d)) := by
      rw [run_add]
      simp [run, step_queued host transport _ q1]
    rw [hrun]
    refine ⟨?_, ?_, ?_⟩
    · simpa [attemptRequest] using q4
    · simp [attemptRequest]
    · simp only [attemptRequest]
      omega

/-- With `retries: Infinity` a success after two retried failures is shaped as
with any other limit: three calls, and the promise resolved with the body. -/
theorem unbounded_success_example :
    ∃ s, invoke sampleHost (failsThenAnswers 2 (.str "ok")) 6
        [.obj [("url", .str "u"), ("retries", .inf false)]] = some s ∧
      transportCalls s.trace = 3 ∧ timersOf s.trace = [.num 2000, .num 2000] ∧
      s.settled = some (.resolve (.str "ok")) :=
  ⟨_, rfl, rfl, rfl, rfl⟩

/-- C16 does not hold as stated: with `retries: Infinity` the comparison
`attempt < retries` of line 65 holds for every counter, so with a transport
that fails on every call line 75 is never reached.  After any number of turns
of the event loop the promise is unsettled, neither `resolve` nor `reject` has
been called, a turn is still to come, and the calls of the transport number
at least half the turns, so no bound on them holds. -/
theorem C16_counterexample_unbounded_retries :
    unbounded sampleHost
      (jsOr (getProp (.obj [("url", .str "u"), ("retries", .inf false)]) "retries") (.num 3))
      = true ∧
    (∀ i, truthy (alwaysFails i).err = true) ∧
    ∀ fuel, ∃ s, invoke sampleHost alwaysFails fuel
        [.obj [("url", .str "u"), ("retries", .inf false)]] = some s ∧
      s.settled = none ∧ settlesOf s.trace = [] ∧
      step sampleHost alwaysFails s ≠ none ∧ fuel ≤ 2 * transportCalls s.trace := by
  refine ⟨rfl, fun _ => rfl, fun fuel => ?_⟩
  obtain ⟨h1, h2, h3⟩ := run_unbounded sampleHost alwaysFails
    (.obj [("url", .str "u"), ("retries", .inf false)]) fuel rfl (fun _ => rfl)
  have hinv := run_inv sampleHost alwaysFails fuel _
    (initial_inv sampleHost (.obj [("url", .str "u"), ("retries", .inf false)]))
  have hset := run_settlesOf sampleHost alwaysFails fuel _
    (initial_inv sampleHost (.obj [("url", .str "u"), ("retries", .inf false)]))
    (initial_settlesOf sampleHost (.obj [("url", .str "u"), ("retries", .inf false)]))
  refine ⟨_, invoke_one sampleHost alwaysFails fuel _ rfl, h1, ?_, ?_, ?_⟩
  · rw [hset, h1]
    rfl
  · intro hstep
    unfold step at hstep
    cases hp : (run sampleHost alwaysFails fuel
      (initial sampleHost (.obj [("url", .str "u"), ("retries", .inf false)]))).pending <;>
      simp [hp] at hstep
    exact h2 hp
  · rw [transportCalls_eq_calls sampleHost _ hinv]
    exact h3

/-- C16 (amended): for every descriptor whose retry limit in force is not
`Infinity` and every transport, once the event loop has run for two turns per
allowed attempt the invocation is at rest: the promise is settled, `resolve`
or `reject` has been called exactly once, nothing is queued, and the transport
has been called at most once more than the retry limit in force; and at every
moment before that the promise has been settled at most once and the same
bound on the calls holds. -/
theorem C16_settles_exactly_once (host : Host) (transport : Transport) (d : JSVal)
    (fuel : Nat) (hd : isNullish d = false)
    (hfin : unbounded host (jsOr (getProp d "retries") (.num 3)) = false)
    (hf : 2 * (retryLimit host (jsOr (getProp d "retries") (.num 3)) + 1) ≤ fuel) :
    (∃ s o, invoke host transport fuel [d] = some s ∧ s.settled = some o ∧
      settlesOf s.trace = [o] ∧ step host transport s = none ∧
      transportCalls s.trace ≤ retryLimit host (jsOr (getProp d "retries") (.num 3)) + 1) ∧
    (∀ fuel' s', invoke host transport fuel' [d] = some s' →
      (settlesOf s'.trace).length ≤ 1 ∧
      transportCalls s'.trace ≤ retryLimit host (jsOr (getProp d "retries") (.num 3)) + 1) := by
  have hbound : ∀ n, transportCalls (run host transport n (initial host d)).trace
      ≤ retryLimit host (jsOr (getProp d "retries") (.num 3)) + 1 := by
    intro n
    have hinv := run_inv host transport n _ (initial_inv host d)
    have hcfg := run_sameConfig host transport n (initial host d)
    have := calls_le_limit host _ hinv (by rw [hcfg.2.1]; exact hfin)
    rw [hcfg.2.1] at this
    rw [transportCalls_eq_calls host _ hinv]
    exact this
  have hset : ∀ n, settlesOf (run host transport n (initial host d)).trace
      = (run host transport n (initial host d)).settled.toList :=
    fun n => run_settlesOf host transport n _ (initial_inv host d) (initial_settlesOf host d)
  refine ⟨?_, ?_⟩
  · have hidle : (run host transport fuel (initial host d)).pending = .idle := by
      have h0 := run_terminates host transport
        (retryLimit host (jsOr (getProp d "retries") (.num 3))) (initial host d)
        (by simp [initial, queued]) (initial_inv host d) hfin (by simp [initial])
      rw [run_rest host transport _ fuel _ h0 hf]
      exact h0
    have hinv := run_inv host transport fuel _ (initial_inv host d)
    have hsome := hinv.settledIdle hidle
    obtain ⟨o, ho⟩ := Option.isSome_iff_exists.1 hsome
    refine ⟨_, o, invoke_one host transport fuel d hd, ho, ?_, ?_, hbound fuel⟩
    · rw [hset fuel, ho]
      rfl
    · simp [step, hidle]
  · intro fuel' s' hs'
    obtain ⟨_, rfl⟩ := invoke_some host transport fuel' d s' hs'
    refine ⟨?_, hbound fuel'⟩
    rw [hset fuel']
    cases (run host transport fuel' (initial host d)).settled <;> simp

/-- Witness for C16 (amended): `retries: 1` and a transport that always fails;
after four turns the promise is rejected once, after two calls. -/
theorem C16_settles_exactly_once_witness :
    isNullish (.obj [("url", .str "u"), ("retries", .num 1)]) = false ∧
    unbounded sampleHost
      (jsOr (getProp (.obj [("url", .str "u"), ("retries", .num 1)]) "retries") (.num 3))
      = false ∧
    (∃ s, invoke sampleHost alwaysFails 4 [.obj [("url", .str "u"), ("retries", .num 1)]]
        = some s ∧
      settlesOf s.trace = [.reject (alwaysFails 1).err] ∧ transportCalls s.trace = 2) ∧
    ((∃ s o, invoke sampleHost alwaysFails 4 [.obj [("url", .str "u"), ("retries", .num 1)]]
          = some s ∧ s.settled = some o ∧
        settlesOf s.trace = [o] ∧ step sampleHost alwaysFails s = none ∧
        transportCalls s.trace ≤ retryLimit sampleHost
          (jsOr (getProp (.obj [("url", .str "u"), ("retries", .num 1)]) "retries") (.num 3))
          + 1) ∧
      (∀ fuel' s', invoke sampleHost alwaysFails fuel'
          [.obj [("url", .str "u"), ("retries", .num 1)]] = some s' →
        (settlesOf s'.trace).length ≤ 1 ∧
        transportCalls s'.trace ≤ retryLimit sampleHost
          (jsOr (getProp (.obj [("url", .str "u"), ("retries", .num 1)]) "retries") (.num 3))
          + 1)) :=
  ⟨rfl, rfl, ⟨_, rfl, rfl, rfl⟩,
    C16_settles_exactly_once sampleHost alwaysFails
      (.obj [("url", .str "u"), ("retries", .num 1)]) 4 rfl rfl (by decide)⟩

/-! ## The attempt counter -/

/-- What one turn of the event loop does to the counter: it goes up by one
when the turn is a failed transmission followed by a retry (and then the next
attempt is on a timer), and stays as it is on every other turn. -/
theorem step_attempt (host : Host) (transport : Transport) (s s' : State)
    (hs : step host transport s = some s') :
    s'.attempt = s.attempt + (if retried host transport s = true then 1 else 0) ∧
    (retried host transport s = true → s'.pending = .timer s.retryDelay) := by
  unfold step at hs
  cases hp : s.pending <;> simp [hp] at hs <;> subst hs
  · simp [attemptRequest, retried, hp]
  · simp [attemptRequest, retried, hp]
  · unfold callback
    by_cases c1 : truthy (transport (s.calls - 1)).err = true
    · by_cases c2 : jsLess host s.attempt s.retries = true
      · simp [c1, c2, retried, hp]
      · simp [c1, c2, retried, hp, settle]
    · by_cases c3 : truthy s.returnFullResponse = true
      · simp [c1, c3, retried, hp, settle]
      · by_cases c4 : truthy s.forceJSON = true
        · cases hj : host.jsonParse (toStr host (transport (s.calls - 1)).body) <;>
            simp [c1, c3, c4, retried, hp, settle]
        · simp [c1, c3, c4, retried, hp, settle]

/-- C17: in every reachable state of an invocation whose captured `retries`
is a number `n ≥ 0`, the attempt counter is between 0 and `n`; it is 0 when
`MakeRequest` returns; a turn of the event loop raises it by exactly one when
that turn is a failed transmission followed by a retry, and leaves it alone
otherwise; and whenever an `attemptRequest` is queued, that is, when the next
turn issues a call of the transport, the counter equals the number of calls
made so far. -/
theorem C17_attempt_counter (host : Host) (transport : Transport) (d : JSVal)
    (fuel : Nat) (s : State) (n : Int)
    (h : invoke host transport fuel [d] = some s)
    (hn : toNum host s.retries = some n) (h0 : 0 ≤ n) :
    (∃ s0, invoke host transport 0 [d] = some s0 ∧ s0.attempt = 0) ∧
    (0 ≤ (s.attempt : Int) ∧ (s.attempt : Int) ≤ n) ∧
    (∀ s', step host transport s = some s' →
      s'.attempt = s.attempt + (if retried host transport s = true then 1 else 0) ∧
      (retried host transport s = true → s'.pending = .timer s.retryDelay)) ∧
    (queued s.pending = true → s.attempt = transportCalls s.trace) := by
  obtain ⟨hd, rfl⟩ := invoke_some host transport fuel d s h
  have hinv := run_inv host transport fuel _ (initial_inv host d)
  refine ⟨⟨_, invoke_one host transport 0 d hd, rfl⟩, ⟨Int.natCast_nonneg _, ?_⟩,
    fun s' hs' => step_attempt host transport _ s' hs', ?_⟩
  · have hb : (run host transport fuel (initial host d)).attempt
        ≤ retryLimit host (run host transport fuel (initial host d)).retries := by
      rcases hinv.bound with hb | hb
      · rw [unbounded_of_toNum host _ n hn] at hb
        cases hb
      · exact hb
    have hlim : retryLimit host (run host transport fuel (initial host d)).retries
        = n.toNat := by
      simp [retryLimit, hn]
    rw [hlim] at hb
    have := Int.toNat_of_nonneg h0
    omega
  · intro hq
    rw [transportCalls_eq_calls host _ hinv]
    have hp := hinv.phase
    unfold phaseOk at hp
    cases hpe : (run host transport fuel (initial host d)).pending <;>
      rw [hpe] at hp hq <;> simp [queued] at hp hq <;> omega

/-- Witness for C17: `retries: 1` and a transport that always fails, after the
first failure: the counter is 1, the retry is on its timer, and one call has
been made. -/
theorem C17_attempt_counter_witness :
    (∃ s, invoke sampleHost alwaysFails 2 [.obj [("url", .str "u"), ("retries", .num 1)]]
        = some s ∧ toNum sampleHost s.retries = some 1 ∧ (0 : Int) ≤ 1 ∧
      s.attempt = 1 ∧ queued s.pending = true ∧ transportCalls s.trace = 1 ∧
      ((∃ s0, invoke sampleHost alwaysFails 0
            [.obj [("url", .str "u"), ("retries", .num 1)]] = some s0 ∧ s0.attempt = 0) ∧
        (0 ≤ (s.attempt : Int) ∧ (s.attempt : Int) ≤ 1) ∧
        (∀ s', step sampleHost alwaysFails s = some s' →
          s'.attempt = s.attempt + (if retried sampleHost alwaysFails s = true then 1 else 0) ∧
          (retried sampleHost alwaysFails s = true → s'.pending = .timer s.retryDelay)) ∧
        (queued s.pending = true → s.attempt = transportCalls s.trace))) :=
  ⟨_, rfl, rfl, by decide, rfl, rfl, rfl,
    C17_attempt_counter sampleHost alwaysFails
      (.obj [("url", .str "u"), ("retries", .num 1)]) 2 _ 1 rfl rfl (by decide)⟩

/-- C18: for every call with exactly one argument, when `MakeRequest` returns
its promise the transport has not been called: the trace holds no call of
`request`, the promise is pending, and the first attempt is queued on the
next tick, so that the first call happens on the first turn of the event
loop.  The call returns for every argument other than `undefined` and `null`;
for those it throws, again without a call of the transport. -/
theorem C18_first_call_deferred (host : Host) (d : JSVal) :
    (∀ s, MakeRequest host [d] = .returned s →
      transportCalls s.trace = 0 ∧ s.calls = 0 ∧ s.settled = none ∧
      s.pending = .nextTick ∧ Event.nextTick ∈ s.trace ∧
      ∀ transport, step host transport s = some (attemptRequest s) ∧
        transportCalls (attemptRequest s).trace = 1) ∧
    (isNullish d = false → ∃ s, MakeRequest host [d] = .returned s) ∧
    (∀ e t, MakeRequest host [d] = .threw e t → transportCalls t = 0) := by
  cases hd : isNullish d with
  | false =>
    have hone := MakeRequest_one host d hd
    have hinv := initial_inv host d
    have hcalls : transportCalls (initial host d).trace = 0 := by
      rw [transportCalls_eq_calls host _ hinv]
      rfl
    refine ⟨?_, fun _ => ⟨_, hone⟩, ?_⟩
    · intro s hs
      rw [hone] at hs
      cases hs
      refine ⟨hcalls, rfl, rfl, rfl, ?_, ?_⟩
      · simp [initial]
      · intro transport
        refine ⟨rfl, ?_⟩
        have := attemptRequest_inv host _ (by simp [initial, queued]) hinv
        rw [transportCalls_eq_calls host _ this]
        rfl
    · intro e t ht
      rw [hone] at ht
      cases ht
  | true =>
    have hthrow : MakeRequest host [d]
        = .threw (mkError "TypeError" "Cannot read properties of undefined")
          (if host.IsDebug && host.OfflineTests then [.offlineSetup, .disableNetConnect]
           else []) := by
      simp [MakeRequest, hd]
    refine ⟨?_, fun h => by simp at h, ?_⟩
    · intro s hs
      rw [hthrow] at hs
      cases hs
    · intro e t ht
      rw [hthrow] at ht
      cases ht
      split <;> rfl

/-- Witness for C18: the call `MakeRequest({url: "u"})` returns with the
first attempt queued and no call of the transport made. -/
theorem C18_first_call_deferred_witness :
    ∃ s, MakeRequest sampleHost [.obj [("url", .str "u")]] = .returned s ∧
      s.trace = [.nextTick] ∧ transportCalls s.trace = 0 ∧ s.settled = none :=
  ⟨_, rfl, rfl,
    ((C18_first_call_deferred sampleHost (.obj [("url", .str "u")])).1 _ rfl).1,
    ((C18_first_call_deferred sampleHost (.obj [("url", .str "u")])).1 _ rfl).2.2.1⟩

end Http
